import Mathlib

/-!
Verification of the spec-z provenance-tracked spectrum model.

Shallow embedding of the core of the repository:
  * `src/specz/spectrum.py`   (class Spectrum: constructor, copy, get_range,
    to_dict / from_dict, _add_provenance)
  * `src/specz/operations.py` (subtract_spectra, divide_spectra,
    normalize_spectrum, smooth_spectrum)
  * `src/specz/converters.py` (wavelength_to_frequency and friends,
    convert_units)

Modelling conventions:
  * Python floats are modelled by exact rationals `ℚ`; IEEE non-finite
    values (NaN, inf) are modelled by `none` in `Val := Option ℚ`.
    Decimal float literals of the source (1e-9, 1e-10, 0.9, ...) are
    modelled by the exact rationals they denote.
  * Fallible Python code (raise ValueError / NotImplementedError) is
    modelled with `Except String`.
  * Wall-clock timestamps and the heterogeneous `details` payloads of
    provenance records are diagnostic data and are abstracted away; a
    provenance record keeps its `operation` field, which is the only
    field the verified properties inspect.
  * Aliasing / in-place mutation of Python heap objects (lists, dicts,
    ndarrays) is modelled separately with an explicit heap (`Heap`,
    `SpectrumH`): object identity is a heap index, values live in the
    heap.
-/

namespace SpecZ

/-- A Python float: `some q` is the finite value `q`; `none` stands for a
non-finite IEEE value (NaN, and where noted ±inf). -/
abbrev Val := Option ℚ

/-- NaN-propagating addition of float values. -/
def vadd : Val → Val → Val
  | some a, some b => some (a + b)
  | _, _ => none

/-- NaN-propagating subtraction of float values. -/
def vsub : Val → Val → Val
  | some a, some b => some (a - b)
  | _, _ => none

/-- NaN-propagating scalar multiplication. -/
def vscale (c : ℚ) : Val → Val
  | some a => some (c * a)
  | none => none

/-- NaN-propagating division.  Division of a finite value by exact zero
produces an IEEE non-finite value (±inf or NaN), abstracted here as
`none`. -/
def vdiv : Val → Val → Val
  | some a, some b => if b = 0 then none else some (a / b)
  | _, _ => none

/-- Binary maximum as `np.max` computes it: NaN-propagating. -/
def vmax : Val → Val → Val
  | some a, some b => some (max a b)
  | _, _ => none

/-- `np.max` over an array: error (modelled by `none` at the call site)
on an empty array, otherwise the NaN-propagating fold of `vmax`. -/
def vmaxList : List Val → Option Val
  | [] => none
  | x :: xs => some (xs.foldl vmax x)

/-- One provenance record.  The source stores
`{operation, timestamp, details}`; the timestamp and details are
wall-clock/diagnostic payloads abstracted away here. -/
structure ProvRecord where
  operation : String
deriving DecidableEq, Repr

/-- Free-form metadata dict, modelled as an association list. -/
abbrev Metadata := List (String × String)

/-- The Spectrum value: `src/specz/spectrum.py`, class `Spectrum`. -/
structure Spectrum where
  wavelength : List ℚ
  flux : List Val
  wavelength_unit : String
  flux_unit : String
  metadata : Metadata
  provenance : List ProvRecord
  name : Option String
deriving DecidableEq, Repr

/-- `Spectrum.__init__` (spectrum.py lines 24-59): checks
`len(wavelength) == len(flux)` (ValueError otherwise), stores the
fields (`metadata or {}` and `provenance or []` are value-identical to
the arguments in this value-level model), then
`self._add_provenance("created", ...)` appends a `"created"` record. -/
def mkSpectrum (wavelength : List ℚ) (flux : List Val)
    (wu fu : String) (metadata : Metadata)
    (provenance : List ProvRecord) (nm : Option String) :
    Except String Spectrum :=
  if wavelength.length ≠ flux.length then
    .error "Wavelength and flux arrays must have the same length"
  else
    .ok { wavelength := wavelength, flux := flux,
          wavelength_unit := wu, flux_unit := fu,
          metadata := metadata,
          provenance := provenance ++ [⟨"created"⟩],
          name := nm }

/-- `Spectrum._add_provenance` (spectrum.py lines 61-68): append a
record to the provenance log. -/
def addProvenance (s : Spectrum) (op : String) : Spectrum :=
  { s with provenance := s.provenance ++ [⟨op⟩] }

/-- `Spectrum.copy` (spectrum.py lines 70-80): re-runs the constructor
on copies of all fields (the same values at this level), including the
provenance log. -/
def Spectrum.copy (s : Spectrum) : Except String Spectrum :=
  mkSpectrum s.wavelength s.flux s.wavelength_unit s.flux_unit
    s.metadata s.provenance s.name

/-- `Spectrum.get_range` (spectrum.py lines 82-107): boolean mask
`wl_min <= wavelength <= wl_max` applied to both arrays, constructor,
then a `"range_extraction"` record. -/
def Spectrum.getRange (s : Spectrum) (lo hi : ℚ) : Except String Spectrum :=
  let pairs := (s.wavelength.zip s.flux).filter
    (fun p => decide (lo ≤ p.1) && decide (p.1 ≤ hi))
  match mkSpectrum (pairs.map Prod.fst) (pairs.map Prod.snd)
      s.wavelength_unit s.flux_unit s.metadata s.provenance s.name with
  | .error e => .error e
  | .ok r => .ok (addProvenance r "range_extraction")

/-- The dict produced by `to_dict` / consumed by `from_dict`
(spectrum.py lines 109-132).  Optional keys that `from_dict` reads
with `.get` are `Option`s (`none` = key absent). -/
structure SpecDict where
  wavelength : List ℚ
  flux : List Val
  wavelength_unit : Option String
  flux_unit : Option String
  metadata : Option Metadata
  provenance : Option (List ProvRecord)
  name : Option String
deriving DecidableEq, Repr

/-- `Spectrum.to_dict` (spectrum.py lines 109-119). -/
def Spectrum.toDict (s : Spectrum) : SpecDict :=
  { wavelength := s.wavelength, flux := s.flux,
    wavelength_unit := some s.wavelength_unit,
    flux_unit := some s.flux_unit,
    metadata := some s.metadata,
    provenance := some s.provenance,
    name := s.name }

/-- `Spectrum.from_dict` (spectrum.py lines 121-132): reads the arrays,
defaults absent keys to `"nm"`, `"counts"`, `{}`, `[]`, `None`, and
calls the constructor. -/
def fromDict (d : SpecDict) : Except String Spectrum :=
  mkSpectrum d.wavelength d.flux
    (d.wavelength_unit.getD "nm") (d.flux_unit.getD "counts")
    (d.metadata.getD []) (d.provenance.getD []) d.name

/-- `np.interp(x, xp, fp)` at one query point, for increasing `xp`
(numpy documents the result as piecewise-linear interpolation with
edge-value extrapolation and does not check monotonicity).  `np.interp`
raises on empty `xp`; that case is guarded at the call sites, and this
total function returns `none` there. -/
def npInterp (x : ℚ) : List ℚ → List Val → Val
  | [_], f0 :: _ => f0
  | x0 :: x1 :: xs, f0 :: f1 :: fs =>
    if x ≤ x0 then f0
    else if x ≤ x1 then
      vadd f0 (vscale ((x - x0) / (x1 - x0)) (vsub f1 f0))
    else npInterp x (x1 :: xs) (f1 :: fs)
  | _, _ => none

/-- Grid alignment shared verbatim by `subtract_spectra` (operations.py
lines 24-30) and `divide_spectra` (lines 67-72): interpolate b onto a's
grid when `interpolate` is set and the grids differ (np.interp raises
on an empty sample grid), otherwise require equal lengths. -/
def interpFluxB (a b : Spectrum) (interpolate : Bool) :
    Except String (List Val) :=
  if interpolate = true ∧ a.wavelength ≠ b.wavelength then
    if b.wavelength.isEmpty then
      .error "array of sample points is empty"
    else
      .ok (a.wavelength.map (fun x => npInterp x b.wavelength b.flux))
  else
    if a.wavelength.length ≠ b.wavelength.length then
      .error "Spectra must have same length or use interpolate=True"
    else
      .ok b.flux

/-- `subtract_spectra` (operations.py lines 9-48): align grids, flux =
a.flux − b_interp, rebuild through the constructor (no name passed),
then append a `"subtraction"` record. -/
def subtract_spectra (a b : Spectrum) (interpolate : Bool) :
    Except String Spectrum :=
  match interpFluxB a b interpolate with
  | .error e => .error e
  | .ok fbInterp =>
    match mkSpectrum a.wavelength (List.zipWith vsub a.flux fbInterp)
        a.wavelength_unit a.flux_unit a.metadata a.provenance none with
    | .error e => .error e
    | .ok r => .ok (addProvenance r "subtraction")

/-- The zero-handling dispatch of `divide_spectra` (operations.py lines
74-86).  For `"mask"`, positions with an exactly-zero denominator get
NaN and the rest divide (`mask = flux_b_interp != 0`, result prefilled
with NaN, masked positions assigned the quotient).  For `"nan"`, raw
elementwise division.  For `"small"`, zero denominators are replaced
by 1e-10 first.  Anything else is a ValueError. -/
def handleZeroFlux (handleZeros : String) (fa fbInterp : List Val) :
    Except String (List Val) :=
  if handleZeros = "mask" then
    .ok (List.zipWith
      (fun va vb => if vb = some 0 then none else vdiv va vb)
      fa fbInterp)
  else if handleZeros = "nan" then
    .ok (List.zipWith vdiv fa fbInterp)
  else if handleZeros = "small" then
    .ok (List.zipWith
      (fun va vb => vdiv va (if vb = some 0 then some (1 / 10 ^ 10) else vb))
      fa fbInterp)
  else
    .error "handle_zeros must be 'mask', 'nan', or 'small'"

/-- `divide_spectra` (operations.py lines 51-103): align grids, apply
the zero-handling policy, rebuild through the constructor with flux
unit `"(a)/(b)"` (no name passed), then append a `"division"`
record. -/
def divide_spectra (a b : Spectrum) (interpolate : Bool)
    (handleZeros : String) : Except String Spectrum :=
  match interpFluxB a b interpolate with
  | .error e => .error e
  | .ok fbInterp =>
    match handleZeroFlux handleZeros a.flux fbInterp with
    | .error e => .error e
    | .ok resultFlux =>
      match mkSpectrum a.wavelength resultFlux a.wavelength_unit
          ("(" ++ a.flux_unit ++ ")/(" ++ b.flux_unit ++ ")")
          a.metadata a.provenance none with
      | .error e => .error e
      | .ok r => .ok (addProvenance r "division")

/-- Region selection of `normalize_spectrum` (operations.py lines
121-126): when both bounds are given, the flux values whose wavelength
lies in `[range_min, range_max]`; otherwise the whole flux array. -/
def fluxRegion (s : Spectrum) (rangeMin rangeMax : Option ℚ) : List Val :=
  match rangeMin, rangeMax with
  | some lo, some hi =>
    ((s.wavelength.zip s.flux).filter
      (fun p => decide (lo ≤ p.1) && decide (p.1 ≤ hi))).map Prod.snd
  | _, _ => s.flux

/-- `np.trapz(y)` with the default unit sample spacing: the sum of
`(y[i] + y[i+1]) / 2`; `0.0` on arrays of length < 2. -/
def trapzUnit : List Val → Val
  | x :: y :: rest => vadd (vscale (1 / 2) (vadd x y)) (trapzUnit (y :: rest))
  | _ => some 0

/-- `np.median` of a sorted ascending list of finite floats: middle
element, or the mean of the two middle elements; NaN (with a runtime
warning in numpy) on an empty array. -/
def medianQ (l : List ℚ) : Val :=
  if l.length = 0 then none
  else if l.length % 2 = 1 then some (l.getD (l.length / 2) 0)
  else some ((l.getD (l.length / 2 - 1) 0 + l.getD (l.length / 2) 0) / 2)

/-- The `"continuum"` factor of `normalize_spectrum` (operations.py
lines 132-136): sort ascending, keep the top 10% by count
(`int(len * 0.9)`, which for array sizes in range equals `⌊9n/10⌋`),
and take the median.  Any NaN in the region infects the sort order and
the median; that case is abstracted to NaN. -/
def continuumFactor (l : List Val) : Val :=
  if l.all (fun v => v.isSome) then
    let sorted := (l.filterMap id).mergeSort (fun a b => decide (a ≤ b))
    medianQ (sorted.drop (9 * sorted.length / 10))
  else none

/-- The scalar factor dispatch of `normalize_spectrum` (operations.py
lines 128-138): `np.max` (which raises on an empty region) for
`"peak"`, `np.trapz(flux_region)` for `"area"`, the top-10% median for
`"continuum"`, ValueError otherwise. -/
def normFactor (method : String) (region : List Val) : Except String Val :=
  if method = "peak" then
    match vmaxList region with
    | some v => .ok v
    | none => .error "zero-size array to reduction operation maximum"
  else if method = "area" then
    .ok (trapzUnit region)
  else if method = "continuum" then
    .ok (continuumFactor region)
  else
    .error "method must be 'peak', 'area', or 'continuum'"

/-- `normalize_spectrum` (operations.py lines 106-162): pick the region,
compute the scalar factor per method, reject an exactly-zero factor,
divide the whole flux array, rebuild with flux unit `"normalized"`,
then append a `"normalization"` record. -/
def normalize_spectrum (s : Spectrum) (method : String)
    (rangeMin rangeMax : Option ℚ) : Except String Spectrum :=
  match normFactor method (fluxRegion s rangeMin rangeMax) with
  | .error e => .error e
  | .ok nf =>
    if nf = some 0 then
      .error "Cannot normalize: normalization factor is zero"
    else
      match mkSpectrum s.wavelength
          (s.flux.map (fun v => vdiv v nf))
          s.wavelength_unit "normalized" s.metadata s.provenance s.name with
      | .error e => .error e
      | .ok r => .ok (addProvenance r "normalization")

/-- The scipy smoothing filters used by `smooth_spectrum` are external
library collaborators (out of the repository's source); the operation
is verified for an arbitrary choice of them. -/
structure SmoothingKernels where
  savgol : Nat → List Val → List Val
  boxcar : Nat → List Val → List Val
  gaussian : ℚ → List Val → List Val

/-- `smooth_spectrum` (operations.py lines 165-207): dispatch on the
method string (savgol forces the window to the next odd number when
even; gaussian uses sigma = window_size / 3), rebuild through the
constructor, then append a `"smoothing"` record. -/
def smooth_spectrum (K : SmoothingKernels) (s : Spectrum)
    (windowSize : Nat) (method : String) : Except String Spectrum :=
  match (if method = "savgol" then
      .ok (K.savgol (if windowSize % 2 = 0 then windowSize + 1 else windowSize) s.flux)
    else if method = "boxcar" then
      .ok (K.boxcar windowSize s.flux)
    else if method = "gaussian" then
      .ok (K.gaussian ((windowSize : ℚ) / 3) s.flux)
    else
      (.error "method must be 'savgol', 'boxcar', or 'gaussian'" :
        Except String (List Val))) with
  | .error e => .error e
  | .ok smoothedFlux =>
    match mkSpectrum s.wavelength smoothedFlux s.wavelength_unit
        s.flux_unit s.metadata s.provenance s.name with
    | .error e => .error e
    | .ok r => .ok (addProvenance r "smoothing")

/-- `SPEED_OF_LIGHT` (converters.py line 9); the float literal
2.99792458e8 denotes this integer exactly. -/
def SPEED_OF_LIGHT : ℚ := 299792458

/-- `PLANCK_CONSTANT` (converters.py line 10) as the exact rational the
decimal literal 6.62607015e-34 denotes. -/
def PLANCK_CONSTANT : ℚ := 662607015 / 10 ^ 42

/-- `ELECTRON_VOLT` (converters.py line 11) as the exact rational the
decimal literal 1.602176634e-19 denotes. -/
def ELECTRON_VOLT : ℚ := 1602176634 / 10 ^ 28

/-- `wavelength_to_frequency` (converters.py lines 14-37): convert to
meters by unit (`nm`, `angstrom`/`Å`, `um`, `m`; ValueError otherwise),
then c / wavelength_m elementwise. -/
def wavelength_to_frequency (wavelength : List ℚ) (unit : String) :
    Except String (List ℚ) :=
  if unit = "nm" then
    .ok (wavelength.map (fun w => SPEED_OF_LIGHT / (w * (1 / 10 ^ 9))))
  else if unit = "angstrom" ∨ unit = "Å" then
    .ok (wavelength.map (fun w => SPEED_OF_LIGHT / (w * (1 / 10 ^ 10))))
  else if unit = "um" then
    .ok (wavelength.map (fun w => SPEED_OF_LIGHT / (w * (1 / 10 ^ 6))))
  else if unit = "m" then
    .ok (wavelength.map (fun w => SPEED_OF_LIGHT / w))
  else
    .error ("Unknown wavelength unit: " ++ unit)

/-- `frequency_to_wavelength` (converters.py lines 40-63). -/
def frequency_to_wavelength (frequency : List ℚ) (targetUnit : String) :
    Except String (List ℚ) :=
  if targetUnit = "nm" then
    .ok (frequency.map (fun f => SPEED_OF_LIGHT / f * 10 ^ 9))
  else if targetUnit = "angstrom" ∨ targetUnit = "Å" then
    .ok (frequency.map (fun f => SPEED_OF_LIGHT / f * 10 ^ 10))
  else if targetUnit = "um" then
    .ok (frequency.map (fun f => SPEED_OF_LIGHT / f * 10 ^ 6))
  else if targetUnit = "m" then
    .ok (frequency.map (fun f => SPEED_OF_LIGHT / f))
  else
    .error ("Unknown wavelength unit: " ++ targetUnit)

/-- `frequency_to_energy` (converters.py lines 66-84). -/
def frequency_to_energy (frequency : List ℚ) (unit : String) :
    Except String (List ℚ) :=
  if unit = "eV" then
    .ok (frequency.map (fun f => PLANCK_CONSTANT * f / ELECTRON_VOLT))
  else if unit = "J" then
    .ok (frequency.map (fun f => PLANCK_CONSTANT * f))
  else
    .error ("Unknown energy unit: " ++ unit)

/-- `energy_to_frequency` (converters.py lines 87-105). -/
def energy_to_frequency (energy : List ℚ) (unit : String) :
    Except String (List ℚ) :=
  if unit = "eV" then
    .ok (energy.map (fun e => e * ELECTRON_VOLT / PLANCK_CONSTANT))
  else if unit = "J" then
    .ok (energy.map (fun e => e / PLANCK_CONSTANT))
  else
    .error ("Unknown energy unit: " ++ unit)

/-- `convert_wavelength_units` (converters.py lines 108-145): identity
short-circuit on equal unit strings, otherwise through meters. -/
def convert_wavelength_units (wavelength : List ℚ)
    (fromUnit toUnit : String) : Except String (List ℚ) :=
  if fromUnit = toUnit then .ok wavelength
  else
    match (if fromUnit = "nm" then .ok (wavelength.map (fun w => w * (1 / 10 ^ 9)))
      else if fromUnit = "angstrom" ∨ fromUnit = "Å" then
        .ok (wavelength.map (fun w => w * (1 / 10 ^ 10)))
      else if fromUnit = "um" then .ok (wavelength.map (fun w => w * (1 / 10 ^ 6)))
      else if fromUnit = "m" then .ok wavelength
      else (.error ("Unknown source unit: " ++ fromUnit) :
        Except String (List ℚ))) with
    | .error e => .error e
    | .ok wm =>
      if toUnit = "nm" then .ok (wm.map (fun w => w * 10 ^ 9))
      else if toUnit = "angstrom" ∨ toUnit = "Å" then
        .ok (wm.map (fun w => w * 10 ^ 10))
      else if toUnit = "um" then .ok (wm.map (fun w => w * 10 ^ 6))
      else if toUnit = "m" then .ok wm
      else .error ("Unknown target unit: " ++ toUnit)

/-- `convert_units` (converters.py lines 148-200): only the wavelength
axis is implemented; from_unit defaults to the spectrum's unit; the
target dispatch covers the wavelength units, `Hz` and `eV`; the result
is rebuilt through the constructor with the flux copied and a
`"unit_conversion"` record appended. -/
def convert_units (s : Spectrum) (fromUnit : Option String)
    (toUnit : String) (axis : String) : Except String Spectrum :=
  if axis = "wavelength" then
    let fu := fromUnit.getD s.wavelength_unit
    match (if toUnit = "nm" ∨ toUnit = "angstrom" ∨ toUnit = "Å" ∨
        toUnit = "um" ∨ toUnit = "m" then
        match convert_wavelength_units s.wavelength fu toUnit with
        | .error e => .error e
        | .ok w => .ok (w, toUnit)
      else if toUnit = "Hz" then
        match wavelength_to_frequency s.wavelength fu with
        | .error e => .error e
        | .ok w => .ok (w, "Hz")
      else if toUnit = "eV" then
        match wavelength_to_frequency s.wavelength fu with
        | .error e => .error e
        | .ok fr =>
          match frequency_to_energy fr "eV" with
          | .error e => .error e
          | .ok w => .ok (w, "eV")
      else
        (.error ("Unknown target unit: " ++ toUnit) :
          Except String (List ℚ × String))) with
    | .error e => .error e
    | .ok wu =>
      match mkSpectrum wu.1 s.flux wu.2 s.flux_unit s.metadata
          s.provenance s.name with
      | .error e => .error e
      | .ok r => .ok (addProvenance r "unit_conversion")
  else
    .error "Flux unit conversion not yet implemented"

/-! ### Heap model

Python lists, dicts and ndarrays are mutable heap objects; whether two
spectra share a provenance list is object identity, not value
equality.  The heap model makes identity explicit: an object is an
index into one of three typed heaps, and `list.append` is an in-place
update of a heap cell. -/

/-- The Python heap restricted to the three kinds of objects the
Spectrum constructor touches: float arrays, metadata dicts, provenance
lists. -/
structure Heap where
  arrs : List (List Val)
  mds : List Metadata
  provs : List (List ProvRecord)
deriving DecidableEq, Repr

/-- Allocate a fresh array object; its id is the next free index. -/
def Heap.allocArr (σ : Heap) (v : List Val) : Nat × Heap :=
  (σ.arrs.length, { σ with arrs := σ.arrs ++ [v] })

/-- Read an array object. -/
def Heap.getArr (σ : Heap) (i : Nat) : List Val := σ.arrs.getD i []

/-- Overwrite an array object in place (a caller mutating its data). -/
def Heap.setArr (σ : Heap) (i : Nat) (v : List Val) : Heap :=
  { σ with arrs := σ.arrs.set i v }

/-- Allocate a fresh metadata dict. -/
def Heap.allocMd (σ : Heap) (v : Metadata) : Nat × Heap :=
  (σ.mds.length, { σ with mds := σ.mds ++ [v] })

/-- Read a metadata dict. -/
def Heap.getMd (σ : Heap) (i : Nat) : Metadata := σ.mds.getD i []

/-- Overwrite a metadata dict in place. -/
def Heap.setMd (σ : Heap) (i : Nat) (v : Metadata) : Heap :=
  { σ with mds := σ.mds.set i v }

/-- Allocate a fresh provenance list. -/
def Heap.allocProv (σ : Heap) (v : List ProvRecord) : Nat × Heap :=
  (σ.provs.length, { σ with provs := σ.provs ++ [v] })

/-- Read a provenance list. -/
def Heap.getProv (σ : Heap) (i : Nat) : List ProvRecord := σ.provs.getD i []

/-- `list.append(record)`: in-place mutation of the provenance list
object at index `i`. -/
def Heap.appendProv (σ : Heap) (i : Nat) (r : ProvRecord) : Heap :=
  { σ with provs := σ.provs.set i (σ.provs.getD i [] ++ [r]) }

/-- A Spectrum as Python holds it: references into the heap plus the
immutable string/None fields. -/
structure SpectrumH where
  wlId : Nat
  flId : Nat
  mdId : Nat
  provId : Nat
  wavelength_unit : String
  flux_unit : String
  name : Option String
deriving DecidableEq, Repr

/-- All references of a SpectrumH point at allocated heap cells. -/
def SpectrumH.wf (σ : Heap) (s : SpectrumH) : Prop :=
  s.wlId < σ.arrs.length ∧ s.flId < σ.arrs.length ∧
  s.mdId < σ.mds.length ∧ s.provId < σ.provs.length

/-- `self.metadata = metadata or {}`: keep the caller's dict object
when it is truthy (non-empty), bind a fresh empty dict otherwise. -/
def pickMd (σ : Heap) : Option Nat → Nat × Heap
  | some i => if (σ.getMd i).isEmpty then σ.allocMd [] else (i, σ)
  | none => σ.allocMd []

/-- `self.provenance = provenance or []`: keep the caller's list object
when truthy, bind a fresh empty list otherwise. -/
def pickProv (σ : Heap) : Option Nat → Nat × Heap
  | some i => if (σ.getProv i).isEmpty then σ.allocProv [] else (i, σ)
  | none => σ.allocProv []

/-- `Spectrum.__init__` on the heap (spectrum.py lines 24-59).
`np.asarray` on a float ndarray returns the argument itself, so the
array ids are stored as passed; the metadata and provenance references
go through `or`-defaulting, and `_add_provenance("created")` then
mutates (appends to) whichever list object `self.provenance` refers
to. -/
def mkSpectrumH (σ : Heap) (wlId flId : Nat) (wu fu : String)
    (mdArg : Option Nat) (provArg : Option Nat) (nm : Option String) :
    Except String (SpectrumH × Heap) :=
  if (σ.getArr wlId).length ≠ (σ.getArr flId).length then
    .error "Wavelength and flux arrays must have the same length"
  else
    let m := pickMd σ mdArg
    let p := pickProv m.2 provArg
    .ok (⟨wlId, flId, m.1, p.1, wu, fu, nm⟩, p.2.appendProv p.1 ⟨"created"⟩)

/-- `Spectrum.copy` on the heap (spectrum.py lines 70-80):
`self.wavelength.copy()`, `self.flux.copy()`, `deepcopy(metadata)` and
`deepcopy(provenance)` each allocate a fresh object with the same
value, and the constructor runs on those. -/
def SpectrumH.copy (s : SpectrumH) (σ : Heap) :
    Except String (SpectrumH × Heap) :=
  let a := σ.allocArr (σ.getArr s.wlId)
  let b := a.2.allocArr (σ.getArr s.flId)
  let c := b.2.allocMd (σ.getMd s.mdId)
  let d := c.2.allocProv (σ.getProv s.provId)
  mkSpectrumH d.2 a.1 b.1 s.wavelength_unit s.flux_unit
    (some c.1) (some d.1) s.name

/-- The dict `to_dict` returns, on the heap: `tolist()` copies the
array values out, but `metadata` and `provenance` are returned by
reference (spectrum.py lines 109-119). -/
structure DictH where
  wavelength : List Val
  flux : List Val
  wavelength_unit : String
  flux_unit : String
  mdId : Nat
  provId : Nat
  name : Option String
deriving DecidableEq, Repr

/-- `Spectrum.to_dict` on the heap. -/
def toDictH (σ : Heap) (s : SpectrumH) : DictH :=
  { wavelength := σ.getArr s.wlId, flux := σ.getArr s.flId,
    wavelength_unit := s.wavelength_unit, flux_unit := s.flux_unit,
    mdId := s.mdId, provId := s.provId, name := s.name }

/-- `Spectrum.from_dict` on the heap (spectrum.py lines 121-132):
`np.array(...)` copies the sequences into fresh arrays, while the
metadata and provenance references from the dict are passed to the
constructor as-is. -/
def fromDictH (σ : Heap) (d : DictH) : Except String (SpectrumH × Heap) :=
  let a := σ.allocArr d.wavelength
  let b := a.2.allocArr d.flux
  mkSpectrumH b.2 a.1 b.1 d.wavelength_unit d.flux_unit
    (some d.mdId) (some d.provId) d.name

/-! ### Concrete sample values (used by witnesses and counterexamples) -/

/-- A small spectrum, as produced by
`Spectrum([1,2], [2,4], "nm", "counts")`. -/
def sA : Spectrum :=
  ⟨[1, 2], [some 2, some 4], "nm", "counts", [], [⟨"created"⟩], none⟩

/-- A second spectrum on a different sorted grid. -/
def sB : Spectrum :=
  ⟨[1, 3], [some 1, some 3], "nm", "counts", [], [⟨"created"⟩], some "b"⟩

/-- A spectrum whose grid strictly contains sB's range on both sides. -/
def aW : Spectrum :=
  ⟨[0, 2, 10], [some 5, some 5, some 5], "nm", "counts", [], [⟨"created"⟩], none⟩

/-- Numerator for the division sample. -/
def aZ : Spectrum :=
  ⟨[1, 2, 3], [some 2, some 4, some 6], "nm", "counts", [], [⟨"created"⟩], none⟩

/-- Denominator with an exact zero in the middle. -/
def bZ : Spectrum :=
  ⟨[1, 2, 3], [some 1, some 0, some 2], "nm", "counts", [], [⟨"created"⟩], some "den"⟩

/-- A spectrum with strictly negative flux everywhere. -/
def sNeg : Spectrum :=
  ⟨[1, 2], [some (-2), some (-1)], "nm", "counts", [], [⟨"created"⟩], none⟩

/-- A spectrum whose wavelength spacing (2) differs from unit spacing. -/
def sC8 : Spectrum :=
  ⟨[0, 2], [some 1, some 1], "nm", "counts", [], [⟨"created"⟩], none⟩

/-- `subtract_spectra sA sA` (equal grids). -/
def rSubSelf : Spectrum :=
  ⟨[1, 2], [some 0, some 0], "nm", "counts", [],
    [⟨"created"⟩, ⟨"created"⟩, ⟨"subtraction"⟩], none⟩

/-- `subtract_spectra aW sB true` (interpolating branch). -/
def rSubW : Spectrum :=
  ⟨[0, 2, 10], [some 4, some 3, some 2], "nm", "counts", [],
    [⟨"created"⟩, ⟨"created"⟩, ⟨"subtraction"⟩], none⟩

/-- `divide_spectra aZ bZ true "mask"`. -/
def rDivZ : Spectrum :=
  ⟨[1, 2, 3], [some 2, none, some 3], "nm", "(counts)/(counts)", [],
    [⟨"created"⟩, ⟨"created"⟩, ⟨"division"⟩], none⟩

/-- `normalize_spectrum sA "peak"`. -/
def rNormPeak : Spectrum :=
  ⟨[1, 2], [some (1 / 2), some 1], "nm", "normalized", [],
    [⟨"created"⟩, ⟨"created"⟩, ⟨"normalization"⟩], none⟩

/-- `normalize_spectrum sA "area"` (trapz factor 3). -/
def rNormArea : Spectrum :=
  ⟨[1, 2], [some (2 / 3), some (4 / 3)], "nm", "normalized", [],
    [⟨"created"⟩, ⟨"created"⟩, ⟨"normalization"⟩], none⟩

/-- `normalize_spectrum sNeg "peak"`: the maximum of the result is 2. -/
def rNeg : Spectrum :=
  ⟨[1, 2], [some 2, some 1], "nm", "normalized", [],
    [⟨"created"⟩, ⟨"created"⟩, ⟨"normalization"⟩], none⟩

/-- `normalize_spectrum sC8 "area"`: the unit-spacing factor is 1. -/
def rC8 : Spectrum :=
  ⟨[0, 2], [some 1, some 1], "nm", "normalized", [],
    [⟨"created"⟩, ⟨"created"⟩, ⟨"normalization"⟩], none⟩

/-- `convert_units sA none "angstrom" "wavelength"`. -/
def rConv : Spectrum :=
  ⟨[10, 20], [some 2, some 4], "angstrom", "counts", [],
    [⟨"created"⟩, ⟨"created"⟩, ⟨"unit_conversion"⟩], none⟩

/-- `sA.getRange 1 1`. -/
def rRange : Spectrum :=
  ⟨[1], [some 2], "nm", "counts", [],
    [⟨"created"⟩, ⟨"created"⟩, ⟨"range_extraction"⟩], none⟩

/-- `sA.copy`: note the second `"created"` record. -/
def rCopyA : Spectrum :=
  ⟨[1, 2], [some 2, some 4], "nm", "counts", [],
    [⟨"created"⟩, ⟨"created"⟩], none⟩

/-- Identity smoothing kernels (any kernels work for the provenance
and invariant claims; these make the witness computable). -/
def K0 : SmoothingKernels := ⟨fun _ f => f, fun _ f => f, fun _ f => f⟩

/-- `smooth_spectrum K0 sA 5 "boxcar"`. -/
def rSmooth : Spectrum :=
  ⟨[1, 2], [some 2, some 4], "nm", "counts", [],
    [⟨"created"⟩, ⟨"created"⟩, ⟨"smoothing"⟩], none⟩

/-- The normalization factor the spec's words describe for `"area"`:
the trapezoidal-rule integral of the region's flux against the
wavelength axis, i.e. flux weighted by the wavelength spacing.  Stated
from the spec for comparison with the implementation's `trapzUnit`. -/
def trapzWavelengthSpec : List ℚ → List Val → Val
  | x0 :: x1 :: xs, f0 :: f1 :: fs =>
    vadd (vscale ((x1 - x0) / 2) (vadd f0 f1)) (trapzWavelengthSpec (x1 :: xs) (f1 :: fs))
  | _, _ => some 0

/-- A small heap: two arrays, one non-empty metadata dict, one
provenance list holding the creation record. -/
def σ0 : Heap := ⟨[[some 1], [some 2]], [[("k", "v")]], [[⟨"created"⟩]]⟩

/-- A well-formed heap spectrum over `σ0`. -/
def s0 : SpectrumH := ⟨0, 1, 0, 0, "nm", "counts", some "s0"⟩

/-- Concrete result of `s0.copy()` on `σ0`: four fresh heap cells, and
the copied provenance cell gets a second `"created"` record. -/
def outCopy0 : SpectrumH × Heap :=
  (⟨2, 3, 1, 1, "nm", "counts", some "s0"⟩,
   ⟨[[some 1], [some 2], [some 1], [some 2]],
    [[("k", "v")], [("k", "v")]],
    [[⟨"created"⟩], [⟨"created"⟩, ⟨"created"⟩]]⟩)

/-! ## Helper lemmas -/

theorem mkSpectrum_ok {wl : List ℚ} {fl : List Val} {wu fu : String}
    {md : Metadata} {pv : List ProvRecord} {nm : Option String} {s : Spectrum}
    (h : mkSpectrum wl fl wu fu md pv nm = .ok s) :
    wl.length = fl.length ∧ s = ⟨wl, fl, wu, fu, md, pv ++ [⟨"created"⟩], nm⟩ := by
  unfold mkSpectrum at h
  split at h
  · exact Except.noConfusion h
  · next hlen =>
    cases h
    exact ⟨not_ne_iff.mp hlen, rfl⟩

theorem mkSpectrum_of_length {wl : List ℚ} {fl : List Val} (wu fu : String)
    (md : Metadata) (pv : List ProvRecord) (nm : Option String)
    (hlen : wl.length = fl.length) :
    mkSpectrum wl fl wu fu md pv nm =
      .ok ⟨wl, fl, wu, fu, md, pv ++ [⟨"created"⟩], nm⟩ := by
  unfold mkSpectrum
  rw [if_neg (not_ne_iff.mpr hlen)]

@[simp] theorem addProvenance_wavelength (s : Spectrum) (op : String) :
    (addProvenance s op).wavelength = s.wavelength := rfl

@[simp] theorem addProvenance_flux (s : Spectrum) (op : String) :
    (addProvenance s op).flux = s.flux := rfl

@[simp] theorem addProvenance_provenance (s : Spectrum) (op : String) :
    (addProvenance s op).provenance = s.provenance ++ [⟨op⟩] := rfl

/-- After rebuilding through the constructor and adding the operation
record, the provenance log is the input log plus the two new records. -/
theorem addProv_mk_provenance {wl : List ℚ} {fl : List Val} {wu fu : String}
    {md : Metadata} {pv : List ProvRecord} {nm : Option String} {r0 : Spectrum}
    (op : String) (h : mkSpectrum wl fl wu fu md pv nm = .ok r0) :
    (addProvenance r0 op).provenance = pv ++ [⟨"created"⟩, ⟨op⟩] := by
  obtain ⟨-, rfl⟩ := mkSpectrum_ok h
  simp

/-- Element access through `zipWith`. -/
theorem zipWith_get?_eq {α β γ : Type} (f : α → β → γ) :
    ∀ (l1 : List α) (l2 : List β) (i : Nat) (v1 : α) (v2 : β),
      l1.get? i = some v1 → l2.get? i = some v2 →
      (List.zipWith f l1 l2).get? i = some (f v1 v2) := by
  intro l1
  induction l1 with
  | nil => intro l2 i v1 v2 h1 _; simp at h1
  | cons x xs ih =>
    intro l2 i v1 v2 h1 h2
    cases l2 with
    | nil => simp at h2
    | cons y ys =>
      cases i with
      | zero =>
        simp only [List.get?] at h1 h2
        cases h1; cases h2; rfl
      | succ n =>
        simp only [List.get?] at h1 h2 ⊢
        exact ih ys n v1 v2 h1 h2

/-! Concrete evaluations of the operations on the sample spectra,
used to feed the claim witnesses. -/

theorem subtract_sAsA_eq : subtract_spectra sA sA true = .ok rSubSelf := by
  norm_num [subtract_spectra, interpFluxB, mkSpectrum, addProvenance, vsub,
    sA, rSubSelf]

theorem subtract_aWsB_eq : subtract_spectra aW sB true = .ok rSubW := by
  norm_num [subtract_spectra, interpFluxB, npInterp, mkSpectrum, addProvenance,
    vsub, vadd, vscale, aW, sB, rSubW]

theorem divide_aZbZ_eq : divide_spectra aZ bZ true "mask" = .ok rDivZ := by
  norm_num [divide_spectra, handleZeroFlux, interpFluxB, mkSpectrum,
    addProvenance, vdiv, aZ, bZ, rDivZ]
  rfl

theorem normalize_peak_sA_eq : normalize_spectrum sA "peak" none none = .ok rNormPeak := by
  norm_num [normalize_spectrum, normFactor, fluxRegion, vmaxList, vmax,
    mkSpectrum, addProvenance, vdiv, sA, rNormPeak]

theorem normalize_area_sA_eq : normalize_spectrum sA "area" none none = .ok rNormArea := by
  simp [normalize_spectrum, normFactor, fluxRegion, trapzUnit, vadd, vscale,
    mkSpectrum, addProvenance, vdiv, sA, rNormArea]
  norm_num

theorem normalize_neg_eq : normalize_spectrum sNeg "peak" none none = .ok rNeg := by
  norm_num [normalize_spectrum, normFactor, fluxRegion, vmaxList, vmax,
    mkSpectrum, addProvenance, vdiv, sNeg, rNeg]

theorem normalize_c8_eq : normalize_spectrum sC8 "area" none none = .ok rC8 := by
  simp [normalize_spectrum, normFactor, fluxRegion, trapzUnit, vadd, vscale,
    mkSpectrum, addProvenance, vdiv, sC8, rC8]
  norm_num

theorem convert_sA_eq : convert_units sA none "angstrom" "wavelength" = .ok rConv := by
  simp [convert_units, convert_wavelength_units, mkSpectrum,
    addProvenance, sA, rConv]
  norm_num

theorem range_sA_eq : Spectrum.getRange sA 1 1 = .ok rRange := by
  norm_num [Spectrum.getRange, mkSpectrum, addProvenance, sA, rRange]

theorem smooth_sA_eq : smooth_spectrum K0 sA 5 "boxcar" = .ok rSmooth := by
  norm_num [smooth_spectrum, K0, mkSpectrum, addProvenance, sA, rSmooth]

theorem copy_sA_eq : Spectrum.copy sA = .ok rCopyA := by
  norm_num [Spectrum.copy, mkSpectrum, sA, rCopyA]

theorem fromDict_sA_eq : fromDict (Spectrum.toDict sA) = .ok rCopyA := by
  norm_num [fromDict, Spectrum.toDict, mkSpectrum, sA, rCopyA]

/-! ## Claim C1 -/

/-- C1 counterexample: the claim as stated is false on the code.
`subtract_spectra` on a spectrum with a 1-record provenance log yields
a log of length 3, not 1 + 1 = 2: the constructor adds a second
`"created"` record before the `"subtraction"` record is appended. -/
theorem subtract_adds_two_records_not_one :
    subtract_spectra sA sA true = .ok rSubSelf ∧
    sA.provenance.length = 1 ∧ rSubSelf.provenance.length = 3 ∧
    (3 : Nat) ≠ 1 + 1 :=
  ⟨subtract_sAsA_eq, rfl, rfl, by decide⟩

/-- C1 (amended): every operation that returns a new Spectrum
(subtract_spectra, divide_spectra, normalize_spectrum, smooth_spectrum,
convert_units, get_range) rebuilds the result through the constructor,
so the returned provenance log is the input's log plus exactly TWO new
records: a `"created"` record appended by the constructor, followed by
one operation record whose operation field names the transform
performed. -/
theorem ops_append_created_and_op_record :
    (∀ a b itp r, subtract_spectra a b itp = .ok r →
      r.provenance = a.provenance ++ [⟨"created"⟩, ⟨"subtraction"⟩]) ∧
    (∀ a b itp hz r, divide_spectra a b itp hz = .ok r →
      r.provenance = a.provenance ++ [⟨"created"⟩, ⟨"division"⟩]) ∧
    (∀ s m lo hi r, normalize_spectrum s m lo hi = .ok r →
      r.provenance = s.provenance ++ [⟨"created"⟩, ⟨"normalization"⟩]) ∧
    (∀ K s w m r, smooth_spectrum K s w m = .ok r →
      r.provenance = s.provenance ++ [⟨"created"⟩, ⟨"smoothing"⟩]) ∧
    (∀ s fu tu ax r, convert_units s fu tu ax = .ok r →
      r.provenance = s.provenance ++ [⟨"created"⟩, ⟨"unit_conversion"⟩]) ∧
    (∀ s lo hi r, Spectrum.getRange s lo hi = .ok r →
      r.provenance = s.provenance ++ [⟨"created"⟩, ⟨"range_extraction"⟩]) := by
  refine ⟨?_, ?_, ?_, ?_, ?_, ?_⟩
  · intro a b itp r h
    unfold subtract_spectra at h
    split at h
    · exact Except.noConfusion h
    · split at h
      · exact Except.noConfusion h
      · next hmk => cases h; exact addProv_mk_provenance _ hmk
  · intro a b itp hz r h
    unfold divide_spectra at h
    split at h
    · exact Except.noConfusion h
    · split at h
      · exact Except.noConfusion h
      · split at h
        · exact Except.noConfusion h
        · next hmk => cases h; exact addProv_mk_provenance _ hmk
  · intro s m lo hi r h
    simp only [normalize_spectrum] at h
    split at h
    · exact Except.noConfusion h
    · split at h
      · exact Except.noConfusion h
      · split at h
        · exact Except.noConfusion h
        · next hmk => cases h; exact addProv_mk_provenance _ hmk
  · intro K s w m r h
    unfold smooth_spectrum at h
    split at h
    · exact Except.noConfusion h
    · split at h
      · exact Except.noConfusion h
      · next hmk => cases h; exact addProv_mk_provenance _ hmk
  · intro s fu tu ax r h
    simp only [convert_units] at h
    split at h
    · split at h
      · exact Except.noConfusion h
      · split at h
        · exact Except.noConfusion h
        · next hmk => cases h; exact addProv_mk_provenance _ hmk
    · exact Except.noConfusion h
  · intro s lo hi r h
    simp only [Spectrum.getRange] at h
    split at h
    · exact Except.noConfusion h
    · next hmk => cases h; exact addProv_mk_provenance _ hmk

/-- C1 witness: the amended theorem applied to concrete runs of all
six operations. -/
theorem ops_append_created_and_op_record_witness :
    rSubSelf.provenance = sA.provenance ++ [⟨"created"⟩, ⟨"subtraction"⟩] ∧
    rDivZ.provenance = aZ.provenance ++ [⟨"created"⟩, ⟨"division"⟩] ∧
    rNormPeak.provenance = sA.provenance ++ [⟨"created"⟩, ⟨"normalization"⟩] ∧
    rSmooth.provenance = sA.provenance ++ [⟨"created"⟩, ⟨"smoothing"⟩] ∧
    rConv.provenance = sA.provenance ++ [⟨"created"⟩, ⟨"unit_conversion"⟩] ∧
    rRange.provenance = sA.provenance ++ [⟨"created"⟩, ⟨"range_extraction"⟩] :=
  ⟨ops_append_created_and_op_record.1 sA sA true rSubSelf subtract_sAsA_eq,
   ops_append_created_and_op_record.2.1 aZ bZ true "mask" rDivZ divide_aZbZ_eq,
   ops_append_created_and_op_record.2.2.1 sA "peak" none none rNormPeak
     normalize_peak_sA_eq,
   ops_append_created_and_op_record.2.2.2.1 K0 sA 5 "boxcar" rSmooth smooth_sA_eq,
   ops_append_created_and_op_record.2.2.2.2.1 sA none "angstrom" "wavelength"
     rConv convert_sA_eq,
   ops_append_created_and_op_record.2.2.2.2.2 sA 1 1 rRange range_sA_eq⟩

/-! ## Claim C3 -/

theorem mk_ok_length {wl : List ℚ} {fl : List Val} {wu fu : String}
    {md : Metadata} {pv : List ProvRecord} {nm : Option String} {r0 : Spectrum}
    (h : mkSpectrum wl fl wu fu md pv nm = .ok r0) :
    r0.wavelength.length = r0.flux.length := by
  obtain ⟨hlen, rfl⟩ := mkSpectrum_ok h
  simpa using hlen

theorem addProv_mk_length {wl : List ℚ} {fl : List Val} {wu fu : String}
    {md : Metadata} {pv : List ProvRecord} {nm : Option String} {r0 : Spectrum}
    (op : String) (h : mkSpectrum wl fl wu fu md pv nm = .ok r0) :
    (addProvenance r0 op).wavelength.length = (addProvenance r0 op).flux.length := by
  simpa using mk_ok_length h

/-- C3: construction fails with a ValueError exactly when the arrays
have different lengths; every successfully constructed Spectrum has
`len(wavelength) == len(flux)`, and every operation that returns a
Spectrum preserves this invariant (each rebuilds its result through
the constructor). -/
theorem construction_length_invariant :
    (∀ (wl : List ℚ) (fl : List Val) (wu fu : String) md pv nm,
      (∃ e, mkSpectrum wl fl wu fu md pv nm = .error e) ↔ wl.length ≠ fl.length) ∧
    (∀ (wl : List ℚ) (fl : List Val) (wu fu : String) md pv nm s,
      mkSpectrum wl fl wu fu md pv nm = .ok s →
      s.wavelength.length = s.flux.length) ∧
    (∀ a b itp r, subtract_spectra a b itp = .ok r →
      r.wavelength.length = r.flux.length) ∧
    (∀ a b itp hz r, divide_spectra a b itp hz = .ok r →
      r.wavelength.length = r.flux.length) ∧
    (∀ s m lo hi r, normalize_spectrum s m lo hi = .ok r →
      r.wavelength.length = r.flux.length) ∧
    (∀ K s w m r, smooth_spectrum K s w m = .ok r →
      r.wavelength.length = r.flux.length) ∧
    (∀ s fu tu ax r, convert_units s fu tu ax = .ok r →
      r.wavelength.length = r.flux.length) ∧
    (∀ s lo hi r, Spectrum.getRange s lo hi = .ok r →
      r.wavelength.length = r.flux.length) ∧
    (∀ s r, Spectrum.copy s = .ok r → r.wavelength.length = r.flux.length) := by
  refine ⟨?_, ?_, ?_, ?_, ?_, ?_, ?_, ?_, ?_⟩
  · intro wl fl wu fu md pv nm
    constructor
    · rintro ⟨e, he⟩
      unfold mkSpectrum at he
      split at he
      · next hne => exact hne
      · exact Except.noConfusion he
    · intro hne
      exact ⟨"Wavelength and flux arrays must have the same length",
        by unfold mkSpectrum; rw [if_pos hne]⟩
  · intro wl fl wu fu md pv nm s h
    exact mk_ok_length h
  · intro a b itp r h
    unfold subtract_spectra at h
    split at h
    · exact Except.noConfusion h
    · split at h
      · exact Except.noConfusion h
      · next hmk => cases h; exact addProv_mk_length _ hmk
  · intro a b itp hz r h
    unfold divide_spectra at h
    split at h
    · exact Except.noConfusion h
    · split at h
      · exact Except.noConfusion h
      · split at h
        · exact Except.noConfusion h
        · next hmk => cases h; exact addProv_mk_length _ hmk
  · intro s m lo hi r h
    simp only [normalize_spectrum] at h
    split at h
    · exact Except.noConfusion h
    · split at h
      · exact Except.noConfusion h
      · split at h
        · exact Except.noConfusion h
        · next hmk => cases h; exact addProv_mk_length _ hmk
  · intro K s w m r h
    unfold smooth_spectrum at h
    split at h
    · exact Except.noConfusion h
    · split at h
      · exact Except.noConfusion h
      · next hmk => cases h; exact addProv_mk_length _ hmk
  · intro s fu tu ax r h
    simp only [convert_units] at h
    split at h
    · split at h
      · exact Except.noConfusion h
      · split at h
        · exact Except.noConfusion h
        · next hmk => cases h; exact addProv_mk_length _ hmk
    · exact Except.noConfusion h
  · intro s lo hi r h
    simp only [Spectrum.getRange] at h
    split at h
    · exact Except.noConfusion h
    · next hmk => cases h; exact addProv_mk_length _ hmk
  · intro s r h
    unfold Spectrum.copy at h
    exact mk_ok_length h

/-- C3 witness: the invariant theorem applied to concrete runs. -/
theorem construction_length_invariant_witness :
    rSubSelf.wavelength.length = rSubSelf.flux.length ∧
    rDivZ.wavelength.length = rDivZ.flux.length ∧
    rNormPeak.wavelength.length = rNormPeak.flux.length ∧
    rCopyA.wavelength.length = rCopyA.flux.length ∧
    sA.wavelength.length = sA.flux.length ∧
    (∃ e, mkSpectrum [1, 2] [some 1] "nm" "counts" [] [] none = .error e) :=
  ⟨construction_length_invariant.2.2.1 sA sA true rSubSelf subtract_sAsA_eq,
   construction_length_invariant.2.2.2.1 aZ bZ true "mask" rDivZ divide_aZbZ_eq,
   construction_length_invariant.2.2.2.2.1 sA "peak" none none rNormPeak
     normalize_peak_sA_eq,
   construction_length_invariant.2.2.2.2.2.2.2.2 sA rCopyA copy_sA_eq,
   construction_length_invariant.2.1 [1, 2] [some 2, some 4] "nm" "counts"
     [] [] none sA (by rfl),
   (construction_length_invariant.1 [1, 2] [some 1] "nm" "counts" [] [] none).mpr
     (by decide)⟩

/-! ## Claim C4 -/

/-- C4: `Spectrum.from_dict(s.to_dict())` reproduces s's wavelength
array, flux array, units, metadata and name. -/
theorem fromDict_toDict_roundtrip (s : Spectrum)
    (hlen : s.wavelength.length = s.flux.length) :
    (∀ e, fromDict s.toDict ≠ .error e) ∧
    ∀ s2, fromDict s.toDict = .ok s2 →
      s2.wavelength = s.wavelength ∧ s2.flux = s.flux ∧
      s2.wavelength_unit = s.wavelength_unit ∧
      s2.flux_unit = s.flux_unit ∧
      s2.metadata = s.metadata ∧ s2.name = s.name := by
  have h : fromDict s.toDict =
      .ok ⟨s.wavelength, s.flux, s.wavelength_unit, s.flux_unit,
        s.metadata, s.provenance ++ [⟨"created"⟩], s.name⟩ := by
    unfold fromDict Spectrum.toDict
    exact mkSpectrum_of_length _ _ _ _ _ hlen
  constructor
  · intro e he
    rw [h] at he
    exact Except.noConfusion he
  · intro s2 h2
    rw [h] at h2
    cases h2
    exact ⟨rfl, rfl, rfl, rfl, rfl, rfl⟩

/-- C4 witness: the round trip on a concrete spectrum. -/
theorem fromDict_toDict_roundtrip_witness :
    rCopyA.wavelength = sA.wavelength ∧ rCopyA.flux = sA.flux ∧
    rCopyA.wavelength_unit = sA.wavelength_unit ∧
    rCopyA.flux_unit = sA.flux_unit ∧
    rCopyA.metadata = sA.metadata ∧ rCopyA.name = sA.name :=
  (fromDict_toDict_roundtrip sA (by decide)).2 rCopyA fromDict_sA_eq

/-! ## Claim C5 -/

/-- C5 counterexample: `"Å"` is not one of the four unit strings the
claim lists, yet `wavelength_to_frequency` accepts it (treating it as
angstrom) instead of failing with an unknown-unit error. -/
theorem angstrom_symbol_accepted :
    ("Å" : String) ≠ "nm" ∧ ("Å" : String) ≠ "angstrom" ∧
    ("Å" : String) ≠ "um" ∧ ("Å" : String) ≠ "m" ∧
    wavelength_to_frequency [1] "Å" = .ok [2997924580000000000] := by
  refine ⟨by decide, by decide, by decide, by decide, ?_⟩
  simp [wavelength_to_frequency, SPEED_OF_LIGHT]
  norm_num

/-- C5 (amended): `wavelength_to_frequency` returns
c / (wavelength converted to meters), with c = 2.99792458e8, for the
units `nm` (×1e-9), `angstrom` and its synonym `Å` (×1e-10), `um`
(×1e-6) and `m` (×1), and fails with an unknown-unit ValueError for
every other unit string. -/
theorem wavelength_to_frequency_cases :
    (∀ wl, wavelength_to_frequency wl "nm" =
      .ok (wl.map (fun w => SPEED_OF_LIGHT / (w * (1 / 10 ^ 9))))) ∧
    (∀ wl, wavelength_to_frequency wl "angstrom" =
      .ok (wl.map (fun w => SPEED_OF_LIGHT / (w * (1 / 10 ^ 10))))) ∧
    (∀ wl, wavelength_to_frequency wl "Å" =
      .ok (wl.map (fun w => SPEED_OF_LIGHT / (w * (1 / 10 ^ 10))))) ∧
    (∀ wl, wavelength_to_frequency wl "um" =
      .ok (wl.map (fun w => SPEED_OF_LIGHT / (w * (1 / 10 ^ 6))))) ∧
    (∀ wl, wavelength_to_frequency wl "m" =
      .ok (wl.map (fun w => SPEED_OF_LIGHT / w))) ∧
    (∀ wl u, u ≠ "nm" → u ≠ "angstrom" → u ≠ "Å" → u ≠ "um" → u ≠ "m" →
      wavelength_to_frequency wl u =
        .error ("Unknown wavelength unit: " ++ u)) := by
  refine ⟨?_, ?_, ?_, ?_, ?_, ?_⟩
  · intro wl; simp [wavelength_to_frequency]
  · intro wl; simp [wavelength_to_frequency]
  · intro wl; simp [wavelength_to_frequency]
  · intro wl; simp [wavelength_to_frequency]
  · intro wl; simp [wavelength_to_frequency]
  · intro wl u h1 h2 h3 h4 h5
    unfold wavelength_to_frequency
    rw [if_neg h1, if_neg (not_or.mpr ⟨h2, h3⟩), if_neg h4, if_neg h5]

/-- C5 witness: the known-unit branch on 500 nm and a genuinely
unknown unit string. -/
theorem wavelength_to_frequency_cases_witness :
    wavelength_to_frequency [500] "nm" = .ok [599584916000000] ∧
    wavelength_to_frequency [1] "banana" =
      .error "Unknown wavelength unit: banana" := by
  constructor
  · rw [wavelength_to_frequency_cases.1 [500]]
    norm_num [SPEED_OF_LIGHT]
  · exact wavelength_to_frequency_cases.2.2.2.2.2 [1] "banana"
      (by decide) (by decide) (by decide) (by decide) (by decide)

/-! ## Claim C7 -/

theorem foldl_vmax_map_some :
    ∀ (l : List ℚ) (q : ℚ), (l.map some).foldl vmax (some q) = some (l.foldl max q) := by
  intro l
  induction l with
  | nil => intro q; rfl
  | cons x xs ih =>
    intro q
    simpa [vmax] using ih (max q x)

theorem vmaxList_map_some (q : ℚ) (qt : List ℚ) :
    vmaxList ((q :: qt).map some) = some (some (qt.foldl max q)) := by
  simp only [List.map, vmaxList]
  rw [foldl_vmax_map_some]

theorem foldl_max_div {c : ℚ} (hc : 0 ≤ c) :
    ∀ (l : List ℚ) (q : ℚ),
      (l.map (fun x => x / c)).foldl max (q / c) = (l.foldl max q) / c := by
  intro l
  induction l with
  | nil => intro q; rfl
  | cons x xs ih =>
    intro q
    simp only [List.map, List.foldl]
    rw [max_div_div_right hc, ih]

/-- C7 counterexample: on a spectrum whose flux is all negative, peak
normalization does not fail (the factor is -1, not zero), yet the
maximum of the result is 2, not 1. -/
theorem normalize_peak_negative_flux_max_two :
    normalize_spectrum sNeg "peak" none none = .ok rNeg ∧
    vmaxList rNeg.flux = some (some 2) ∧
    (some (some 2) : Option Val) ≠ some (some 1) := by
  refine ⟨normalize_neg_eq, ?_, by norm_num⟩
  simp [rNeg, vmaxList, vmax]

/-- C7 (amended): for a non-empty all-finite flux array whose maximum
is POSITIVE, peak normalization returns a spectrum whose maximum flux
value is exactly 1. -/
theorem normalize_peak_max_one (s : Spectrum) (q : ℚ) (qt : List ℚ)
    (hlen : s.wavelength.length = s.flux.length)
    (hq : s.flux = (q :: qt).map some)
    (hpos : 0 < qt.foldl max q) :
    (∀ e, normalize_spectrum s "peak" none none ≠ .error e) ∧
    ∀ r, normalize_spectrum s "peak" none none = .ok r →
      vmaxList r.flux = some (some 1) := by
  have hMne : qt.foldl max q ≠ 0 := ne_of_gt hpos
  have hNF : normFactor "peak" (fluxRegion s none none) =
      .ok (some (qt.foldl max q)) := by
    unfold normFactor fluxRegion
    rw [if_pos rfl, hq, vmaxList_map_some]
  have hflux : (s.flux.map fun v => vdiv v (some (qt.foldl max q))) =
      ((q / qt.foldl max q) :: qt.map (fun x => x / qt.foldl max q)).map some := by
    rw [hq]
    simp [vdiv, hMne]
  have hmk : mkSpectrum s.wavelength
      (s.flux.map fun v => vdiv v (some (qt.foldl max q)))
      s.wavelength_unit "normalized" s.metadata s.provenance s.name =
      .ok ⟨s.wavelength, s.flux.map fun v => vdiv v (some (qt.foldl max q)),
        s.wavelength_unit, "normalized", s.metadata,
        s.provenance ++ [⟨"created"⟩], s.name⟩ :=
    mkSpectrum_of_length _ _ _ _ _ (by simpa using hlen)
  have hrun : normalize_spectrum s "peak" none none =
      .ok (addProvenance ⟨s.wavelength,
        s.flux.map fun v => vdiv v (some (qt.foldl max q)),
        s.wavelength_unit, "normalized", s.metadata,
        s.provenance ++ [⟨"created"⟩], s.name⟩ "normalization") := by
    unfold normalize_spectrum
    rw [hNF]
    simp only []
    rw [if_neg (by simpa using hMne)]
    rw [hmk]
  constructor
  · intro e he
    rw [hrun] at he
    exact Except.noConfusion he
  · intro r hr
    rw [hrun] at hr
    cases hr
    show vmaxList (s.flux.map fun v => vdiv v (some (qt.foldl max q))) = _
    rw [hflux, vmaxList_map_some, foldl_max_div hpos.le,
      div_self hMne]

/-- C7 witness: the amended theorem on a concrete spectrum with
positive peak. -/
theorem normalize_peak_max_one_witness :
    vmaxList rNormPeak.flux = some (some 1) :=
  (normalize_peak_max_one sA 2 [4] (by decide) rfl
    (by rw [List.foldl, List.foldl]; exact lt_max_iff.mpr (Or.inl (by norm_num)))).2
    rNormPeak normalize_peak_sA_eq

/-! ## Claim C8 -/

/-- C8 counterexample: the wavelength grid [0, 2] has spacing 2, so
the spec's wavelength-weighted trapezoid of the constant flux [1, 1]
is 2 and the spec-normalized flux would be [1/2, 1/2]; the code's
`np.trapz(flux_region)` uses unit sample spacing, giving factor 1 and
result flux [1, 1]. -/
theorem area_factor_ignores_wavelength_spacing :
    normalize_spectrum sC8 "area" none none = .ok rC8 ∧
    rC8.flux = [some 1, some 1] ∧
    trapzWavelengthSpec sC8.wavelength sC8.flux = some 2 ∧
    sC8.flux.map (fun v => vdiv v (trapzWavelengthSpec sC8.wavelength sC8.flux)) =
      [some (1 / 2), some (1 / 2)] ∧
    ([some 1, some 1] : List Val) ≠ [some (1 / 2), some (1 / 2)] := by
  refine ⟨normalize_c8_eq, rfl, ?_, ?_, ?_⟩
  · norm_num [trapzWavelengthSpec, vadd, vscale, sC8]
  · norm_num [trapzWavelengthSpec, vadd, vscale, vdiv, sC8]
  · norm_num

/-- C8 (amended): area normalization divides the flux by
`np.trapz(flux_region)` computed with the DEFAULT UNIT sample spacing;
the spectrum's wavelength values play no role in the factor. -/
theorem normalize_area_uses_unit_spacing (s : Spectrum) (lo hi : Option ℚ)
    (hlen : s.wavelength.length = s.flux.length)
    (hnz : trapzUnit (fluxRegion s lo hi) ≠ some 0) :
    (∀ e, normalize_spectrum s "area" lo hi ≠ .error e) ∧
    ∀ r, normalize_spectrum s "area" lo hi = .ok r →
      r.flux = s.flux.map (fun v => vdiv v (trapzUnit (fluxRegion s lo hi))) := by
  have hNF : normFactor "area" (fluxRegion s lo hi) =
      .ok (trapzUnit (fluxRegion s lo hi)) := by
    unfold normFactor
    rw [if_neg (by decide), if_pos rfl]
  have hmk : mkSpectrum s.wavelength
      (s.flux.map fun v => vdiv v (trapzUnit (fluxRegion s lo hi)))
      s.wavelength_unit "normalized" s.metadata s.provenance s.name =
      .ok ⟨s.wavelength,
        s.flux.map fun v => vdiv v (trapzUnit (fluxRegion s lo hi)),
        s.wavelength_unit, "normalized", s.metadata,
        s.provenance ++ [⟨"created"⟩], s.name⟩ :=
    mkSpectrum_of_length _ _ _ _ _ (by simpa using hlen)
  have hrun : normalize_spectrum s "area" lo hi =
      .ok (addProvenance ⟨s.wavelength,
        s.flux.map fun v => vdiv v (trapzUnit (fluxRegion s lo hi)),
        s.wavelength_unit, "normalized", s.metadata,
        s.provenance ++ [⟨"created"⟩], s.name⟩ "normalization") := by
    unfold normalize_spectrum
    rw [hNF]
    simp only []
    rw [if_neg hnz, hmk]
  constructor
  · intro e he
    rw [hrun] at he
    exact Except.noConfusion he
  · intro r hr
    rw [hrun] at hr
    cases hr
    rfl

/-- C8 witness: the amended theorem on a concrete run (factor 3, the
unit-spacing trapezoid of [2, 4]). -/
theorem normalize_area_uses_unit_spacing_witness :
    rNormArea.flux = sA.flux.map (fun v => vdiv v (trapzUnit (fluxRegion sA none none))) :=
  (normalize_area_uses_unit_spacing sA none none (by decide)
    (by norm_num [trapzUnit, fluxRegion, vadd, vscale, sA])).2
    rNormArea normalize_area_sA_eq

/-! ## Claim C6 -/

theorem handleZeroFlux_mask (fa fbInterp : List Val) :
    handleZeroFlux "mask" fa fbInterp =
      .ok (List.zipWith
        (fun va vb => if vb = some 0 then none else vdiv va vb)
        fa fbInterp) := by
  unfold handleZeroFlux
  rw [if_pos rfl]

/-- On equal grids the alignment step returns b's flux unchanged. -/
theorem interpFluxB_equal_grids (a b : Spectrum) (itp : Bool)
    (hgrid : a.wavelength = b.wavelength) :
    interpFluxB a b itp = .ok b.flux := by
  unfold interpFluxB
  rw [if_neg (by simp [hgrid]), if_neg (by simp [hgrid])]

/-- C6: with equal wavelength grids and finite input fluxes,
`divide_spectra` with `handle_zeros="mask"` produces NaN at exactly
the positions where b's flux is exactly zero, and the quotient
`a.flux / b.flux` at every other position. -/
theorem divide_mask_nan_positions (a b : Spectrum) (itp : Bool)
    (hla : a.wavelength.length = a.flux.length)
    (hlb : b.wavelength.length = b.flux.length)
    (hgrid : a.wavelength = b.wavelength)
    (hfa : ∀ v ∈ a.flux, v.isSome = true)
    (hfb : ∀ v ∈ b.flux, v.isSome = true) :
    (∀ e, divide_spectra a b itp "mask" ≠ .error e) ∧
    ∀ r, divide_spectra a b itp "mask" = .ok r →
      r.flux.length = a.flux.length ∧
      ∀ i, i < a.flux.length →
        ((r.flux.get? i = some none) ↔ (b.flux.get? i = some (some 0))) ∧
        (∀ qa qb, a.flux.get? i = some (some qa) → b.flux.get? i = some (some qb) →
          qb ≠ 0 → r.flux.get? i = some (some (qa / qb))) := by
  have hfb_eq : interpFluxB a b itp = .ok b.flux :=
    interpFluxB_equal_grids a b itp hgrid
  have hlen2 : b.flux.length = a.flux.length := by
    rw [← hlb, ← hgrid, hla]
  have hflux_len : (List.zipWith
      (fun va vb => if vb = some 0 then none else vdiv va vb)
      a.flux b.flux).length = a.flux.length := by
    rw [List.length_zipWith, hlen2, min_self]
  have hmk : mkSpectrum a.wavelength
      (List.zipWith (fun va vb => if vb = some 0 then none else vdiv va vb)
        a.flux b.flux)
      a.wavelength_unit ("(" ++ a.flux_unit ++ ")/(" ++ b.flux_unit ++ ")")
      a.metadata a.provenance none =
      .ok ⟨a.wavelength,
        List.zipWith (fun va vb => if vb = some 0 then none else vdiv va vb)
          a.flux b.flux,
        a.wavelength_unit, "(" ++ a.flux_unit ++ ")/(" ++ b.flux_unit ++ ")",
        a.metadata, a.provenance ++ [⟨"created"⟩], none⟩ :=
    mkSpectrum_of_length _ _ _ _ _ (by rw [hflux_len, hla])
  have hper : ∀ i, i < a.flux.length →
      (((List.zipWith (fun va vb => if vb = some 0 then none else vdiv va vb)
          a.flux b.flux).get? i = some none) ↔
        (b.flux.get? i = some (some 0))) ∧
      (∀ qa qb, a.flux.get? i = some (some qa) →
        b.flux.get? i = some (some qb) → qb ≠ 0 →
        (List.zipWith (fun va vb => if vb = some 0 then none else vdiv va vb)
          a.flux b.flux).get? i = some (some (qa / qb))) := by
    intro i hi
    have hib : i < b.flux.length := by rw [hlen2]; exact hi
    have hfa_i : a.flux.get? i = some (a.flux.get ⟨i, hi⟩) := List.get?_eq_get hi
    have hfb_i : b.flux.get? i = some (b.flux.get ⟨i, hib⟩) := List.get?_eq_get hib
    obtain ⟨qa, hqa⟩ : ∃ qa, a.flux.get ⟨i, hi⟩ = some qa :=
      Option.isSome_iff_exists.mp (hfa _ (List.get_mem a.flux i hi))
    obtain ⟨qb, hqb⟩ : ∃ qb, b.flux.get ⟨i, hib⟩ = some qb :=
      Option.isSome_iff_exists.mp (hfb _ (List.get_mem b.flux i hib))
    have hz := zipWith_get?_eq
      (fun va vb => if vb = some 0 then none else vdiv va vb)
      a.flux b.flux i _ _ hfa_i hfb_i
    rw [hqa, hqb] at hz
    dsimp only [] at hz
    constructor
    · constructor
      · intro hnone
        rw [hz] at hnone
        by_cases h0 : (some qb : Val) = some 0
        · rw [hfb_i, hqb, Option.some_inj.mp h0]
        · rw [if_neg h0] at hnone
          have : qb ≠ 0 := fun hc => h0 (by rw [hc])
          simp [vdiv, this] at hnone
      · intro hb0
        rw [hfb_i, hqb] at hb0
        have : (some qb : Val) = some 0 := Option.some_inj.mp hb0
        rw [hz, if_pos this]
    · intro qa2 qb2 ha2 hb2 hqb2
      rw [hfa_i, hqa] at ha2
      rw [hfb_i, hqb] at hb2
      cases Option.some_inj.mp (Option.some_inj.mp ha2)
      cases Option.some_inj.mp (Option.some_inj.mp hb2)
      rw [hz, if_neg (by simpa using hqb2)]
      simp [vdiv, hqb2]
  constructor
  · intro e he
    unfold divide_spectra at he
    split at he
    · next heq => rw [hfb_eq] at heq; exact Except.noConfusion heq
    · next fb hfb2 =>
      rw [hfb_eq] at hfb2
      cases Except.ok.inj hfb2
      split at he
      · next heq => rw [handleZeroFlux_mask] at heq; exact Except.noConfusion heq
      · next rf hrf =>
        rw [handleZeroFlux_mask] at hrf
        cases Except.ok.inj hrf
        split at he
        · next heq => rw [hmk] at heq; exact Except.noConfusion heq
        · exact Except.noConfusion he
  · intro r h
    unfold divide_spectra at h
    split at h
    · exact Except.noConfusion h
    · next fb hfb2 =>
      rw [hfb_eq] at hfb2
      cases Except.ok.inj hfb2
      split at h
      · exact Except.noConfusion h
      · next rf hrf =>
        rw [handleZeroFlux_mask] at hrf
        cases Except.ok.inj hrf
        split at h
        · exact Except.noConfusion h
        · next r0 hmk2 =>
          cases h
          rw [hmk] at hmk2
          cases Except.ok.inj hmk2
          exact ⟨by simpa using hflux_len, hper⟩

/-- C6 witness: concrete division with a zero denominator in the
middle position. -/
theorem divide_mask_nan_positions_witness :
    (rDivZ.flux.get? 1 = some none ↔ bZ.flux.get? 1 = some (some 0)) ∧
    rDivZ.flux.get? 0 = some (some (2 / 1)) ∧
    rDivZ.flux.get? 1 = some none := by
  have h := (divide_mask_nan_positions aZ bZ true (by decide) (by decide)
    (by decide) (by decide) (by decide)).2 rDivZ divide_aZbZ_eq
  refine ⟨(h.2 1 (by decide)).1, ?_, ?_⟩
  · exact (h.2 0 (by decide)).2 2 1 (by norm_num [aZ]) (by norm_num [bZ]) (by norm_num)
  · exact ((h.2 1 (by decide)).1).mpr (by norm_num [bZ])

/-! ## Claim C9 -/

theorem getLast?_mem_self {α : Type} : ∀ {l : List α} {a : α},
    l.getLast? = some a → a ∈ l
  | [], a, h => by simp at h
  | [x], a, h => by
    have : x = a := by simpa using h
    subst this
    simp
  | x :: y :: t, a, h => by
    rw [List.getLast?_cons_cons] at h
    exact List.mem_cons_of_mem x (getLast?_mem_self h)

/-- `np.interp` below the sample range returns the first sample value. -/
theorem npInterp_left (xp : List ℚ) (fp : List Val) (x x0 : ℚ) (f0 : Val)
    (hlen : xp.length = fp.length) (hx : xp.head? = some x0)
    (hf : fp.head? = some f0) (hle : x ≤ x0) : npInterp x xp fp = f0 := by
  cases xp with
  | nil => simp at hx
  | cons a tail =>
    cases fp with
    | nil => simp at hlen
    | cons g gs =>
      have hx0 : a = x0 := by simpa using hx
      have hf0 : g = f0 := by simpa using hf
      subst hx0
      subst hf0
      cases tail with
      | nil => rfl
      | cons b rest =>
        cases gs with
        | nil => simp at hlen
        | cons g1 gs2 =>
          simp only [npInterp]
          rw [if_pos hle]

/-- `np.interp` above the sample range returns the last sample value
(for a strictly increasing grid and finite sample values). -/
theorem npInterp_right : ∀ (xp : List ℚ) (fp : List Val) (x xl : ℚ) (ql : ℚ),
    List.Sorted (· < ·) xp → xp.length = fp.length →
    (∀ v ∈ fp, v.isSome = true) →
    xp.getLast? = some xl → fp.getLast? = some (some ql) →
    xl ≤ x → npInterp x xp fp = some ql
  | [], fp, x, xl, ql, _, _, _, hx, _, _ => by simp at hx
  | [a], fp, x, xl, ql, _, hlen, _, hx, hf, _ => by
    cases fp with
    | nil => simp at hlen
    | cons g gs =>
      cases gs with
      | nil =>
        have h1 : g = some ql := by simpa using hf
        subst h1
        rfl
      | cons g1 gs2 => simp at hlen
  | a :: b :: rest, fp, x, xl, ql, hs, hlen, hfin, hx, hf, hge => by
    cases fp with
    | nil => simp at hlen
    | cons g gs =>
      cases gs with
      | nil => simp at hlen
      | cons g1 gs2 =>
        rw [List.getLast?_cons_cons] at hx
        have hxl_mem : xl ∈ b :: rest := getLast?_mem_self hx
        have haxl : a < xl := (List.sorted_cons.mp hs).1 xl hxl_mem
        have hf2 : (g1 :: gs2).getLast? = some (some ql) := by
          rw [← List.getLast?_cons_cons (a := g)]
          exact hf
        simp only [npInterp]
        rw [if_neg (not_le.mpr (lt_of_lt_of_le haxl hge))]
        by_cases hxb : x ≤ b
        · cases rest with
          | cons r rs =>
            have hxl_mem2 : xl ∈ r :: rs := getLast?_mem_self (by
              rw [← List.getLast?_cons_cons (a := b)]; exact hx)
            have hbxl : b < xl :=
              ((List.sorted_cons.mp (List.sorted_cons.mp hs).2).1) xl hxl_mem2
            exact absurd (le_trans hge hxb) (not_le.mpr hbxl)
          | nil =>
            have hxlb : b = xl := by simpa using hx
            have hgeb : b ≤ x := by rw [hxlb]; exact hge
            have hxx : x = b := le_antisymm hxb hgeb
            cases gs2 with
            | cons z zs => simp at hlen
            | nil =>
              have hg1 : g1 = some ql := by simpa using hf2
              subst hg1
              obtain ⟨q0, hq0⟩ := Option.isSome_iff_exists.mp (hfin g (by simp))
              subst hq0
              have hab : a < b := (List.sorted_cons.mp hs).1 b (by simp)
              rw [if_pos hxb, hxx]
              simp only [vadd, vscale, vsub]
              rw [div_self (sub_ne_zero.mpr (ne_of_gt hab))]
              norm_num
        · rw [if_neg hxb]
          exact npInterp_right (b :: rest) (g1 :: gs2) x xl ql
            (List.sorted_cons.mp hs).2 (by simpa using hlen)
            (fun v hv => hfin v (List.mem_cons_of_mem g hv)) hx hf2 hge

/-- `np.interp` inside a sample segment computes the linear-
interpolation formula of that segment. -/
theorem npInterp_segment : ∀ (xp : List ℚ) (fp : List Val) (x : ℚ) (j : Nat)
    (xj xj1 qj qj1 : ℚ),
    List.Sorted (· < ·) xp → xp.length = fp.length →
    (∀ v ∈ fp, v.isSome = true) →
    xp.get? j = some xj → xp.get? (j + 1) = some xj1 →
    fp.get? j = some (some qj) → fp.get? (j + 1) = some (some qj1) →
    xj ≤ x → x ≤ xj1 →
    npInterp x xp fp = some (qj + (x - xj) / (xj1 - xj) * (qj1 - qj))
  | [], _, x, j, xj, xj1, qj, qj1, _, _, _, hxj, _, _, _, _, _ => by simp at hxj
  | [a], fp, x, j, xj, xj1, qj, qj1, _, _, _, hxj, hxj1, _, _, _, _ => by
    cases j with
    | zero => simp at hxj1
    | succ k => simp at hxj
  | a :: b :: rest, fp, x, j, xj, xj1, qj, qj1,
      hs, hlen, hfin, hxj, hxj1, hfj, hfj1, hjx, hxj1' => by
    cases fp with
    | nil => simp at hlen
    | cons g gs =>
      cases gs with
      | nil => simp at hlen
      | cons g1 gs2 =>
        have hab : a < b := (List.sorted_cons.mp hs).1 b (by simp)
        cases j with
        | zero =>
          have h1 : a = xj := by simpa using hxj
          have h2 : b = xj1 := by simpa using hxj1
          have h3 : g = some qj := by simpa using hfj
          have h4 : g1 = some qj1 := by simpa using hfj1
          subst h1
          subst h2
          subst h3
          subst h4
          simp only [npInterp]
          by_cases hxa : x ≤ a
          · rw [if_pos hxa]
            have hxx : x = a := le_antisymm hxa hjx
            rw [hxx, sub_self, zero_div, zero_mul, add_zero]
          · rw [if_neg hxa, if_pos hxj1']
            simp only [vadd, vscale, vsub]
        | succ k =>
          have hxjmem : xj ∈ b :: rest := List.get?_mem (by simpa using hxj)
          have haxj : a < xj := (List.sorted_cons.mp hs).1 xj hxjmem
          simp only [npInterp]
          rw [if_neg (not_le.mpr (lt_of_lt_of_le haxj hjx))]
          by_cases hxb : x ≤ b
          · cases k with
            | zero =>
              have hbxj : b = xj := by simpa using hxj
              have hjxb : b ≤ x := by rw [hbxj]; exact hjx
              have hxx : x = b := le_antisymm hxb hjxb
              have h3 : g1 = some qj := by simpa using hfj
              subst h3
              obtain ⟨q0, hq0⟩ := Option.isSome_iff_exists.mp (hfin g (by simp))
              subst hq0
              rw [if_pos hxb, hxx, ← hbxj]
              simp only [vadd, vscale, vsub]
              rw [div_self (sub_ne_zero.mpr (ne_of_gt hab))]
              norm_num
            | succ m =>
              have hxjmem2 : xj ∈ rest := List.get?_mem (by simpa using hxj)
              have hbxj : b < xj :=
                (List.sorted_cons.mp (List.sorted_cons.mp hs).2).1 xj hxjmem2
              exact absurd (le_trans hjx hxb) (not_le.mpr hbxj)
          · rw [if_neg hxb]
            exact npInterp_segment (b :: rest) (g1 :: gs2) x k xj xj1 qj qj1
              (List.sorted_cons.mp hs).2 (by simpa using hlen)
              (fun v hv => hfin v (List.mem_cons_of_mem g hv))
              (by simpa using hxj) (by simpa using hxj1)
              (by simpa using hfj) (by simpa using hfj1) hjx hxj1'

theorem subtract_interp_run (a b : Spectrum)
    (hla : a.wavelength.length = a.flux.length)
    (hne : b.wavelength ≠ []) (hdiff : a.wavelength ≠ b.wavelength) :
    (∀ e, subtract_spectra a b true ≠ .error e) ∧
    ∀ r, subtract_spectra a b true = .ok r →
      r.wavelength = a.wavelength ∧
      r.flux = List.zipWith vsub a.flux
        (a.wavelength.map (fun x => npInterp x b.wavelength b.flux)) := by
  have hfbI : interpFluxB a b true = .ok
      (a.wavelength.map (fun x => npInterp x b.wavelength b.flux)) := by
    unfold interpFluxB
    rw [if_pos ⟨rfl, hdiff⟩, if_neg (by simp [List.isEmpty_iff, hne])]
  have hmk : mkSpectrum a.wavelength
      (List.zipWith vsub a.flux
        (a.wavelength.map (fun x => npInterp x b.wavelength b.flux)))
      a.wavelength_unit a.flux_unit a.metadata a.provenance none =
      .ok ⟨a.wavelength,
        List.zipWith vsub a.flux
          (a.wavelength.map (fun x => npInterp x b.wavelength b.flux)),
        a.wavelength_unit, a.flux_unit, a.metadata,
        a.provenance ++ [⟨"created"⟩], none⟩ :=
    mkSpectrum_of_length _ _ _ _ _ (by
      rw [List.length_zipWith, List.length_map, ← hla, min_self])
  constructor
  · intro e he
    unfold subtract_spectra at he
    split at he
    · next heq => rw [hfbI] at heq; exact Except.noConfusion heq
    · next fb hfb2 =>
      rw [hfbI] at hfb2
      cases Except.ok.inj hfb2
      split at he
      · next heq => rw [hmk] at heq; exact Except.noConfusion heq
      · exact Except.noConfusion he
  · intro r h
    unfold subtract_spectra at h
    split at h
    · exact Except.noConfusion h
    · next fb hfb2 =>
      rw [hfbI] at hfb2
      cases Except.ok.inj hfb2
      split at h
      · exact Except.noConfusion h
      · next r0 hmk2 =>
        cases h
        rw [hmk] at hmk2
        cases Except.ok.inj hmk2
        exact ⟨rfl, rfl⟩

/-- C9: with `interpolate=True` and differing grids, `subtract_spectra`
returns a spectrum on a's grid whose flux is a.flux minus `np.interp`
of b at each grid point, and (for a strictly increasing sample grid
with finite sample values) `np.interp` is exactly piecewise-linear
interpolation with nearest-edge extrapolation: first sample value below
the range, last sample value above it, and the linear formula of the
enclosing segment inside it. -/
theorem subtract_interpolates_piecewise_linearly :
    (∀ a b, a.wavelength.length = a.flux.length →
      b.wavelength ≠ [] → a.wavelength ≠ b.wavelength →
      (∀ e, subtract_spectra a b true ≠ .error e) ∧
      ∀ r, subtract_spectra a b true = .ok r →
        r.wavelength = a.wavelength ∧
        r.flux = List.zipWith vsub a.flux
          (a.wavelength.map (fun x => npInterp x b.wavelength b.flux))) ∧
    (∀ xp fp (x x0 : ℚ) (f0 : Val), xp.length = fp.length →
      xp.head? = some x0 → fp.head? = some f0 → x ≤ x0 →
      npInterp x xp fp = f0) ∧
    (∀ xp fp (x xl ql : ℚ), List.Sorted (· < ·) xp →
      xp.length = fp.length → (∀ v ∈ fp, v.isSome = true) →
      xp.getLast? = some xl → fp.getLast? = some (some ql) → xl ≤ x →
      npInterp x xp fp = some ql) ∧
    (∀ xp fp (x : ℚ) (j : Nat) (xj xj1 qj qj1 : ℚ),
      List.Sorted (· < ·) xp → xp.length = fp.length →
      (∀ v ∈ fp, v.isSome = true) →
      xp.get? j = some xj → xp.get? (j + 1) = some xj1 →
      fp.get? j = some (some qj) → fp.get? (j + 1) = some (some qj1) →
      xj ≤ x → x ≤ xj1 →
      npInterp x xp fp = some (qj + (x - xj) / (xj1 - xj) * (qj1 - qj))) :=
  ⟨fun a b hla hne hdiff => subtract_interp_run a b hla hne hdiff,
   fun xp fp x x0 f0 hlen hx hf hle => npInterp_left xp fp x x0 f0 hlen hx hf hle,
   fun xp fp x xl ql hs hlen hfin hx hf hge =>
     npInterp_right xp fp x xl ql hs hlen hfin hx hf hge,
   fun xp fp x j xj xj1 qj qj1 hs hlen hfin hxj hxj1 hfj hfj1 hjx hxj1' =>
     npInterp_segment xp fp x j xj xj1 qj qj1 hs hlen hfin hxj hxj1 hfj hfj1 hjx hxj1'⟩

/-- C9 witness: interpolating subtraction of sB (grid [1,3]) from aW
(grid [0,2,10]), plus the three `np.interp` regimes at concrete
points. -/
theorem subtract_interpolates_piecewise_linearly_witness :
    rSubW.wavelength = aW.wavelength ∧
    rSubW.flux = List.zipWith vsub aW.flux
      (aW.wavelength.map (fun x => npInterp x sB.wavelength sB.flux)) ∧
    npInterp 0 [1, 3] [some 1, some 3] = some 1 ∧
    npInterp 10 [1, 3] [some 1, some 3] = some 3 ∧
    npInterp 2 [1, 3] [some 1, some 3] =
      some (1 + (2 - 1) / (3 - 1) * (3 - 1)) := by
  have h := (subtract_interpolates_piecewise_linearly.1 aW sB (by decide)
    (by decide) (by decide)).2 rSubW subtract_aWsB_eq
  refine ⟨h.1, h.2, ?_, ?_, ?_⟩
  · exact subtract_interpolates_piecewise_linearly.2.1 [1, 3] [some 1, some 3]
      0 1 (some 1) (by decide) rfl rfl (by norm_num)
  · exact subtract_interpolates_piecewise_linearly.2.2.1 [1, 3] [some 1, some 3]
      10 3 3 (by decide) (by decide) (by decide) (by decide) (by decide)
      (by norm_num)
  · exact subtract_interpolates_piecewise_linearly.2.2.2 [1, 3] [some 1, some 3]
      2 0 1 3 1 3 (by decide) (by decide) (by decide) (by decide) (by decide)
      (by decide) (by decide) (by norm_num) (by norm_num)

/-! ## Heap lemmas (for C2 and C10) -/

theorem getD_set_self {α : Type} (v d : α) :
    ∀ (l : List α) (i : Nat), i < l.length → (l.set i v).getD i d = v := by
  intro l
  induction l with
  | nil => intro i hi; simp at hi
  | cons x xs ih =>
    intro i hi
    cases i with
    | zero => rfl
    | succ n =>
      simp only [List.set, List.getD_cons_succ]
      exact ih n (by simpa using hi)

theorem getD_set_ne {α : Type} (v d : α) :
    ∀ (l : List α) (i j : Nat), i ≠ j → (l.set i v).getD j d = l.getD j d := by
  intro l
  induction l with
  | nil => intro i j _; simp [List.set]
  | cons x xs ih =>
    intro i j hne
    cases i with
    | zero =>
      cases j with
      | zero => exact absurd rfl hne
      | succ m => rfl
    | succ n =>
      cases j with
      | zero => rfl
      | succ m =>
        simp only [List.set, List.getD_cons_succ]
        exact ih n m (fun hc => hne (by rw [hc]))

theorem getD_concat_self {α : Type} (v d : α) (l : List α) :
    (l ++ [v]).getD l.length d = v := by
  rw [List.getD_append_right _ _ _ _ le_rfl]
  simp

theorem allocArr_fst (σ : Heap) (v : List Val) :
    (σ.allocArr v).1 = σ.arrs.length := rfl

theorem allocArr_getArr_lt (σ : Heap) (v : List Val) {i : Nat}
    (h : i < σ.arrs.length) : ((σ.allocArr v).2).getArr i = σ.getArr i :=
  List.getD_append _ _ _ _ h

theorem allocArr_getArr_fresh (σ : Heap) (v : List Val) :
    ((σ.allocArr v).2).getArr σ.arrs.length = v :=
  getD_concat_self v [] σ.arrs

theorem allocMd_getMd_lt (σ : Heap) (v : Metadata) {i : Nat}
    (h : i < σ.mds.length) : ((σ.allocMd v).2).getMd i = σ.getMd i :=
  List.getD_append _ _ _ _ h

theorem allocMd_getMd_fresh (σ : Heap) (v : Metadata) :
    ((σ.allocMd v).2).getMd σ.mds.length = v :=
  getD_concat_self v [] σ.mds

theorem allocProv_getProv_lt (σ : Heap) (v : List ProvRecord) {i : Nat}
    (h : i < σ.provs.length) : ((σ.allocProv v).2).getProv i = σ.getProv i :=
  List.getD_append _ _ _ _ h

theorem allocProv_getProv_fresh (σ : Heap) (v : List ProvRecord) :
    ((σ.allocProv v).2).getProv σ.provs.length = v :=
  getD_concat_self v [] σ.provs

theorem appendProv_getProv_self (σ : Heap) (r : ProvRecord) {i : Nat}
    (h : i < σ.provs.length) :
    (σ.appendProv i r).getProv i = σ.getProv i ++ [r] :=
  getD_set_self _ _ _ _ h

theorem appendProv_getProv_ne (σ : Heap) (r : ProvRecord) {i j : Nat}
    (h : i ≠ j) : (σ.appendProv i r).getProv j = σ.getProv j :=
  getD_set_ne _ _ _ _ _ h

theorem setArr_getArr_ne (σ : Heap) (v : List Val) {i j : Nat}
    (h : i ≠ j) : (σ.setArr i v).getArr j = σ.getArr j :=
  getD_set_ne _ _ _ _ _ h

theorem setMd_getMd_ne (σ : Heap) (v : Metadata) {i j : Nat}
    (h : i ≠ j) : (σ.setMd i v).getMd j = σ.getMd j :=
  getD_set_ne _ _ _ _ _ h

theorem lt_length_of_getProv_ne_nil (σ : Heap) {i : Nat}
    (h : σ.getProv i ≠ []) : i < σ.provs.length := by
  by_contra hc
  exact h (List.getD_eq_default _ _ (le_of_not_lt hc))

theorem pickMd_arrs (σ : Heap) (o : Option Nat) :
    ((pickMd σ o).2).arrs = σ.arrs := by
  cases o with
  | none => rfl
  | some i =>
    simp only [pickMd]
    split <;> rfl

theorem pickMd_provs (σ : Heap) (o : Option Nat) :
    ((pickMd σ o).2).provs = σ.provs := by
  cases o with
  | none => rfl
  | some i =>
    simp only [pickMd]
    split <;> rfl

theorem pickMd_getMd_lt (σ : Heap) (o : Option Nat) {j : Nat}
    (h : j < σ.mds.length) : ((pickMd σ o).2).getMd j = σ.getMd j := by
  cases o with
  | none =>
    show ((σ.allocMd []).2).getMd j = σ.getMd j
    exact allocMd_getMd_lt σ [] h
  | some i =>
    simp only [pickMd]
    split
    · exact allocMd_getMd_lt σ [] h
    · rfl

theorem pickMd_some_ne_nil (σ : Heap) (i : Nat) (h : σ.getMd i ≠ []) :
    pickMd σ (some i) = (i, σ) := by
  simp only [pickMd]
  rw [if_neg (by simpa [List.isEmpty_iff] using h)]

theorem pickMd_some_nil (σ : Heap) (i : Nat) (h : σ.getMd i = []) :
    pickMd σ (some i) = σ.allocMd [] := by
  simp only [pickMd]
  rw [if_pos (by simpa [List.isEmpty_iff] using h)]

theorem pickProv_arrs (σ : Heap) (o : Option Nat) :
    ((pickProv σ o).2).arrs = σ.arrs := by
  cases o with
  | none => rfl
  | some i =>
    simp only [pickProv]
    split <;> rfl

theorem pickProv_mds (σ : Heap) (o : Option Nat) :
    ((pickProv σ o).2).mds = σ.mds := by
  cases o with
  | none => rfl
  | some i =>
    simp only [pickProv]
    split <;> rfl

theorem pickProv_getProv_lt (σ : Heap) (o : Option Nat) {j : Nat}
    (h : j < σ.provs.length) : ((pickProv σ o).2).getProv j = σ.getProv j := by
  cases o with
  | none =>
    show ((σ.allocProv []).2).getProv j = σ.getProv j
    exact allocProv_getProv_lt σ [] h
  | some i =>
    simp only [pickProv]
    split
    · exact allocProv_getProv_lt σ [] h
    · rfl

theorem pickProv_some_ne_nil (σ : Heap) (i : Nat) (h : σ.getProv i ≠ []) :
    pickProv σ (some i) = (i, σ) := by
  simp only [pickProv]
  rw [if_neg (by simpa [List.isEmpty_iff] using h)]

theorem pickProv_some_nil (σ : Heap) (i : Nat) (h : σ.getProv i = []) :
    pickProv σ (some i) = σ.allocProv [] := by
  simp only [pickProv]
  rw [if_pos (by simpa [List.isEmpty_iff] using h)]

theorem appendProv_getMd (σ : Heap) (i : Nat) (r : ProvRecord) (j : Nat) :
    (σ.appendProv i r).getMd j = σ.getMd j := rfl

theorem appendProv_getArr (σ : Heap) (i : Nat) (r : ProvRecord) (j : Nat) :
    (σ.appendProv i r).getArr j = σ.getArr j := rfl

theorem appendProv_arrs (σ : Heap) (i : Nat) (r : ProvRecord) :
    (σ.appendProv i r).arrs = σ.arrs := rfl

theorem appendProv_mds (σ : Heap) (i : Nat) (r : ProvRecord) :
    (σ.appendProv i r).mds = σ.mds := rfl

theorem pickProv_none (σ : Heap) : pickProv σ none = σ.allocProv [] := rfl

theorem pickMd_none (σ : Heap) : pickMd σ none = σ.allocMd [] := rfl

theorem pickProv_getMd (σ : Heap) (o : Option Nat) (j : Nat) :
    ((pickProv σ o).2).getMd j = σ.getMd j := by
  unfold Heap.getMd
  rw [pickProv_mds]

theorem pickProv_getArr (σ : Heap) (o : Option Nat) (j : Nat) :
    ((pickProv σ o).2).getArr j = σ.getArr j := by
  unfold Heap.getArr
  rw [pickProv_arrs]

theorem pickMd_getProv (σ : Heap) (o : Option Nat) (j : Nat) :
    ((pickMd σ o).2).getProv j = σ.getProv j := by
  unfold Heap.getProv
  rw [pickMd_provs]

theorem pickMd_getArr (σ : Heap) (o : Option Nat) (j : Nat) :
    ((pickMd σ o).2).getArr j = σ.getArr j := by
  unfold Heap.getArr
  rw [pickMd_arrs]

theorem pickMd_provs_length (σ : Heap) (o : Option Nat) :
    ((pickMd σ o).2).provs.length = σ.provs.length := by
  rw [pickMd_provs]

/-- Master description of one heap-level constructor run: field values,
which heap cells are reused, which are fresh, and which caller cells
get mutated. -/
theorem mkSpectrumH_run (σ : Heap) (wlId flId : Nat) (wu fu : String)
    (mdArg provArg : Option Nat) (nm : Option String)
    (hlen : (σ.getArr wlId).length = (σ.getArr flId).length) :
    (∀ e, mkSpectrumH σ wlId flId wu fu mdArg provArg nm ≠ .error e) ∧
    ∀ out, mkSpectrumH σ wlId flId wu fu mdArg provArg nm = .ok out →
      out.1.wlId = wlId ∧ out.1.flId = flId ∧
      out.1.wavelength_unit = wu ∧ out.1.flux_unit = fu ∧ out.1.name = nm ∧
      out.2.arrs = σ.arrs ∧
      (∀ j, j < σ.mds.length → out.2.getMd j = σ.getMd j) ∧
      (∀ i, mdArg = some i → out.2.getMd out.1.mdId = σ.getMd i) ∧
      (∀ i, mdArg = some i → σ.getMd i ≠ [] → out.1.mdId = i) ∧
      (∀ i, mdArg = some i → σ.getMd i = [] → σ.mds.length ≤ out.1.mdId) ∧
      (mdArg = none → σ.mds.length ≤ out.1.mdId) ∧
      (∀ i, provArg = some i → σ.getProv i ≠ [] →
        out.1.provId = i ∧
        out.2.getProv i = σ.getProv i ++ [⟨"created"⟩] ∧
        (∀ j, j < σ.provs.length → j ≠ i → out.2.getProv j = σ.getProv j)) ∧
      (∀ i, provArg = some i → σ.getProv i = [] →
        σ.provs.length ≤ out.1.provId ∧
        out.2.getProv out.1.provId = [⟨"created"⟩] ∧
        (∀ j, j < σ.provs.length → out.2.getProv j = σ.getProv j)) ∧
      (provArg = none →
        σ.provs.length ≤ out.1.provId ∧
        out.2.getProv out.1.provId = [⟨"created"⟩] ∧
        (∀ j, j < σ.provs.length → out.2.getProv j = σ.getProv j)) := by
  have hrun : mkSpectrumH σ wlId flId wu fu mdArg provArg nm =
      .ok (⟨wlId, flId, (pickMd σ mdArg).1,
          (pickProv (pickMd σ mdArg).2 provArg).1, wu, fu, nm⟩,
        ((pickProv (pickMd σ mdArg).2 provArg).2).appendProv
          (pickProv (pickMd σ mdArg).2 provArg).1 ⟨"created"⟩) := by
    unfold mkSpectrumH
    rw [if_neg (not_ne_iff.mpr hlen)]
  refine ⟨fun e he => by rw [hrun] at he; exact Except.noConfusion he, ?_⟩
  intro out h
  rw [hrun] at h
  cases Except.ok.inj h
  refine ⟨rfl, rfl, rfl, rfl, rfl, ?_, ?_, ?_, ?_, ?_, ?_, ?_, ?_, ?_⟩
  · show (Heap.appendProv _ _ _).arrs = σ.arrs
    rw [appendProv_arrs, pickProv_arrs, pickMd_arrs]
  · intro j hj
    show (Heap.appendProv _ _ _).getMd j = σ.getMd j
    rw [appendProv_getMd, pickProv_getMd]
    exact pickMd_getMd_lt σ mdArg hj
  · intro i hi
    subst hi
    show (Heap.appendProv _ _ _).getMd (pickMd σ (some i)).1 = σ.getMd i
    rw [appendProv_getMd, pickProv_getMd]
    by_cases hMi : σ.getMd i = []
    · rw [pickMd_some_nil σ i hMi]
      dsimp only [Heap.allocMd]
      rw [show ({ σ with mds := σ.mds ++ [[]] } : Heap).getMd σ.mds.length =
        ([] : Metadata) from getD_concat_self [] [] σ.mds]
      exact hMi.symm
    · rw [pickMd_some_ne_nil σ i hMi]
  · intro i hi hne
    subst hi
    show (pickMd σ (some i)).1 = i
    rw [pickMd_some_ne_nil σ i hne]
  · intro i hi he
    subst hi
    show σ.mds.length ≤ (pickMd σ (some i)).1
    rw [pickMd_some_nil σ i he]
    exact le_refl _
  · intro hi
    subst hi
    exact le_refl _
  · intro i hi hne
    subst hi
    have hmne : (pickMd σ mdArg).2.getProv i ≠ [] := by
      rw [pickMd_getProv]
      exact hne
    have hbound : i < (pickMd σ mdArg).2.provs.length :=
      lt_length_of_getProv_ne_nil _ hmne
    rw [pickProv_some_ne_nil _ i hmne]
    refine ⟨rfl, ?_, ?_⟩
    · show (Heap.appendProv _ _ _).getProv i = _
      rw [appendProv_getProv_self _ _ hbound, pickMd_getProv]
    · intro j hj hji
      show (Heap.appendProv _ _ _).getProv j = σ.getProv j
      rw [appendProv_getProv_ne _ _ (fun hc => hji hc.symm), pickMd_getProv]
  · intro i hi he
    subst hi
    have hme : (pickMd σ mdArg).2.getProv i = [] := by
      rw [pickMd_getProv]
      exact he
    rw [pickProv_some_nil _ i hme]
    dsimp only [Heap.allocProv]
    refine ⟨?_, ?_, ?_⟩
    · rw [← pickMd_provs_length σ mdArg]
    · show (Heap.appendProv _ _ _).getProv (pickMd σ mdArg).2.provs.length = _
      rw [appendProv_getProv_self _ _ (by simp)]
      exact congrArg (fun l => l ++ [⟨"created"⟩])
        (getD_concat_self [] [] (pickMd σ mdArg).2.provs)
    · intro j hj
      have hj2 : j < (pickMd σ mdArg).2.provs.length := by
        rw [pickMd_provs_length]
        exact hj
      show (Heap.appendProv _ _ _).getProv j = σ.getProv j
      rw [appendProv_getProv_ne _ _ (Nat.ne_of_gt hj2)]
      calc ({ (pickMd σ mdArg).2 with
            provs := (pickMd σ mdArg).2.provs ++ [[]] } : Heap).getProv j
          = (pickMd σ mdArg).2.getProv j := List.getD_append _ _ _ _ hj2
        _ = σ.getProv j := pickMd_getProv σ mdArg j
  · intro hqq
    subst hqq
    rw [pickProv_none]
    dsimp only [Heap.allocProv]
    refine ⟨?_, ?_, ?_⟩
    · rw [← pickMd_provs_length σ mdArg]
    · show (Heap.appendProv _ _ _).getProv (pickMd σ mdArg).2.provs.length = _
      rw [appendProv_getProv_self _ _ (by simp)]
      exact congrArg (fun l => l ++ [⟨"created"⟩])
        (getD_concat_self [] [] (pickMd σ mdArg).2.provs)
    · intro j hj
      have hj2 : j < (pickMd σ mdArg).2.provs.length := by
        rw [pickMd_provs_length]
        exact hj
      show (Heap.appendProv _ _ _).getProv j = σ.getProv j
      rw [appendProv_getProv_ne _ _ (Nat.ne_of_gt hj2)]
      calc ({ (pickMd σ mdArg).2 with
            provs := (pickMd σ mdArg).2.provs ++ [[]] } : Heap).getProv j
          = (pickMd σ mdArg).2.getProv j := List.getD_append _ _ _ _ hj2
        _ = σ.getProv j := pickMd_getProv σ mdArg j

theorem mkSpectrumH_ok_lengths {σ : Heap} {wlId flId : Nat} {wu fu : String}
    {mdArg provArg : Option Nat} {nm : Option String} {out : SpectrumH × Heap}
    (h : mkSpectrumH σ wlId flId wu fu mdArg provArg nm = .ok out) :
    (σ.getArr wlId).length = (σ.getArr flId).length := by
  unfold mkSpectrumH at h
  split at h
  · exact Except.noConfusion h
  · next hg => exact not_ne_iff.mp hg

/-! ## Claim C10 -/

/-- Concrete heap constructor run with `provenance=None` on `σ0`. -/
def out3 : SpectrumH × Heap :=
  (⟨0, 1, 1, 1, "nm", "counts", none⟩,
   ⟨[[some 1], [some 2]], [[("k", "v")], []],
    [[⟨"created"⟩], [⟨"created"⟩]]⟩)

/-- Concrete run of `from_dict(s0.to_dict())` on the heap `σ0`: note the
result reuses provenance cell 0 (s0's own list) and has appended a
second record to it. -/
def outFD : SpectrumH × Heap :=
  (⟨2, 3, 0, 0, "nm", "counts", some "s0"⟩,
   ⟨[[some 1], [some 2], [some 1], [some 2]], [[("k", "v")]],
    [[⟨"created"⟩, ⟨"created"⟩]]⟩)

theorem fromDictH_s0_eq : fromDictH σ0 (toDictH σ0 s0) = .ok outFD := rfl

theorem copy_s0_eq : SpectrumH.copy s0 σ0 = .ok outCopy0 := rfl

theorem mkH_none_s0_eq :
    mkSpectrumH σ0 0 1 "nm" "counts" none none none = .ok out3 := rfl

/-- C10: constructing a Spectrum with a non-empty provenance list
argument stores that same list object and appends the `"created"`
record to it, mutating the caller's list — in particular `from_dict`
applied to another spectrum's `to_dict` output (which returns the
provenance list by reference) appends a record to that spectrum's own
log; a `None` or empty provenance argument is replaced by a fresh list
and no caller-owned data is mutated. -/
theorem constructor_aliases_nonempty_provenance :
    (∀ σ wlId flId (wu fu : String) mdArg pid nm out,
      σ.getProv pid ≠ [] →
      mkSpectrumH σ wlId flId wu fu mdArg (some pid) nm = .ok out →
      out.1.provId = pid ∧
      out.2.getProv pid = σ.getProv pid ++ [⟨"created"⟩]) ∧
    (∀ σ (s : SpectrumH) out,
      σ.getProv s.provId ≠ [] →
      fromDictH σ (toDictH σ s) = .ok out →
      out.1.provId = s.provId ∧
      out.2.getProv s.provId = σ.getProv s.provId ++ [⟨"created"⟩]) ∧
    (∀ σ wlId flId (wu fu : String) mdArg nm out,
      mkSpectrumH σ wlId flId wu fu mdArg none nm = .ok out →
      σ.provs.length ≤ out.1.provId ∧
      out.2.arrs = σ.arrs ∧
      (∀ j, j < σ.provs.length → out.2.getProv j = σ.getProv j) ∧
      (∀ j, j < σ.mds.length → out.2.getMd j = σ.getMd j)) ∧
    (∀ σ wlId flId (wu fu : String) mdArg pid nm out,
      σ.getProv pid = [] →
      mkSpectrumH σ wlId flId wu fu mdArg (some pid) nm = .ok out →
      σ.provs.length ≤ out.1.provId ∧
      out.2.arrs = σ.arrs ∧
      (∀ j, j < σ.provs.length → out.2.getProv j = σ.getProv j) ∧
      (∀ j, j < σ.mds.length → out.2.getMd j = σ.getMd j)) := by
  refine ⟨?_, ?_, ?_, ?_⟩
  · intro σ wlId flId wu fu mdArg pid nm out hne h
    obtain ⟨-, -, -, -, -, -, -, -, -, -, -, hsome, -, -⟩ :=
      (mkSpectrumH_run σ wlId flId wu fu mdArg (some pid) nm
        (mkSpectrumH_ok_lengths h)).2 out h
    obtain ⟨h1, h2, -⟩ := hsome pid rfl hne
    exact ⟨h1, h2⟩
  · intro σ s out hne h
    have h2 : mkSpectrumH
        (((σ.allocArr (σ.getArr s.wlId)).2).allocArr (σ.getArr s.flId)).2
        (σ.allocArr (σ.getArr s.wlId)).1
        (((σ.allocArr (σ.getArr s.wlId)).2).allocArr (σ.getArr s.flId)).1
        s.wavelength_unit s.flux_unit
        (some s.mdId) (some s.provId) s.name = .ok out := h
    obtain ⟨-, -, -, -, -, -, -, -, -, -, -, hsome, -, -⟩ :=
      (mkSpectrumH_run _ _ _ _ _ _ _ _ (mkSpectrumH_ok_lengths h2)).2 out h2
    obtain ⟨h1, hp, -⟩ := hsome s.provId rfl hne
    exact ⟨h1, hp⟩
  · intro σ wlId flId wu fu mdArg nm out h
    obtain ⟨-, -, -, -, -, harrs, hmds, -, -, -, -, -, -, hnone⟩ :=
      (mkSpectrumH_run σ wlId flId wu fu mdArg none nm
        (mkSpectrumH_ok_lengths h)).2 out h
    obtain ⟨hp1, -, hp3⟩ := hnone rfl
    exact ⟨hp1, harrs, hp3, hmds⟩
  · intro σ wlId flId wu fu mdArg pid nm out he h
    obtain ⟨-, -, -, -, -, harrs, hmds, -, -, -, -, -, hempty, -⟩ :=
      (mkSpectrumH_run σ wlId flId wu fu mdArg (some pid) nm
        (mkSpectrumH_ok_lengths h)).2 out h
    obtain ⟨hp1, -, hp3⟩ := hempty pid rfl he
    exact ⟨hp1, harrs, hp3, hmds⟩

/-- C10 witness: on the concrete heap, the from_dict round trip reuses
s0's provenance cell and appends to it, while a `None` provenance
argument allocates fresh and leaves s0's cell alone. -/
theorem constructor_aliases_nonempty_provenance_witness :
    outFD.1.provId = s0.provId ∧
    outFD.2.getProv s0.provId = σ0.getProv s0.provId ++ [⟨"created"⟩] ∧
    σ0.provs.length ≤ out3.1.provId ∧
    out3.2.getProv 0 = σ0.getProv 0 := by
  have hfd := constructor_aliases_nonempty_provenance.2.1 σ0 s0 outFD
    (by decide) fromDictH_s0_eq
  have hn := constructor_aliases_nonempty_provenance.2.2.1 σ0 0 1 "nm" "counts"
    none none out3 mkH_none_s0_eq
  exact ⟨hfd.1, hfd.2, hn.1, hn.2.2.1 0 (by decide)⟩

/-! ## Claim C2 -/

/-- C2 counterexample: the claim as stated is false on the code.
`copy()` runs the constructor on the deep-copied fields, and the
constructor appends a `"created"` record, so the copy's provenance log
has one more record than the original's (length 2 vs 1 here), not an
equal log with no record added. -/
theorem copy_appends_created_record :
    Spectrum.copy sA = .ok rCopyA ∧
    sA.provenance.length = 1 ∧ rCopyA.provenance.length = 2 ∧
    (2 : Nat) ≠ 1 :=
  ⟨copy_sA_eq, rfl, rfl, by decide⟩

/-- C2 (amended): on the heap model, `copy()` returns a spectrum whose
wavelength, flux, metadata and name are value-equal to the original's
and stored in FRESH heap cells (so mutating the copy's arrays or
metadata cannot affect the original, and the original's cells are left
untouched), while the copy's provenance log equals the original's log
with exactly one extra `"created"` record appended by the
constructor. -/
theorem copy_deep_fresh_appends_created (s : SpectrumH) (σ : Heap)
    (hwf : s.wf σ)
    (hlen : (σ.getArr s.wlId).length = (σ.getArr s.flId).length) :
    (∀ e, SpectrumH.copy s σ ≠ .error e) ∧
    ∀ out, SpectrumH.copy s σ = .ok out →
      out.2.getArr out.1.wlId = σ.getArr s.wlId ∧
      out.2.getArr out.1.flId = σ.getArr s.flId ∧
      out.2.getMd out.1.mdId = σ.getMd s.mdId ∧
      out.1.wavelength_unit = s.wavelength_unit ∧
      out.1.flux_unit = s.flux_unit ∧
      out.1.name = s.name ∧
      out.2.getProv out.1.provId = σ.getProv s.provId ++ [⟨"created"⟩] ∧
      out.1.wlId ≠ s.wlId ∧ out.1.flId ≠ s.flId ∧
      out.1.mdId ≠ s.mdId ∧ out.1.provId ≠ s.provId ∧
      out.2.getArr s.wlId = σ.getArr s.wlId ∧
      out.2.getArr s.flId = σ.getArr s.flId ∧
      out.2.getMd s.mdId = σ.getMd s.mdId ∧
      out.2.getProv s.provId = σ.getProv s.provId ∧
      (∀ v, (out.2.setArr out.1.wlId v).getArr s.wlId = out.2.getArr s.wlId) ∧
      (∀ v, (out.2.setArr out.1.flId v).getArr s.flId = out.2.getArr s.flId) ∧
      (∀ m, (out.2.setMd out.1.mdId m).getMd s.mdId = out.2.getMd s.mdId) := by
  obtain ⟨hw, hf, hm, hp⟩ := hwf
  have hA4 : (⟨(σ.arrs ++ [σ.getArr s.wlId]) ++ [σ.getArr s.flId],
      σ.mds ++ [σ.getMd s.mdId], σ.provs ++ [σ.getProv s.provId]⟩ : Heap).getArr
        σ.arrs.length = σ.getArr s.wlId := by
    show ((σ.arrs ++ [σ.getArr s.wlId]) ++ [σ.getArr s.flId]).getD
      σ.arrs.length [] = σ.getArr s.wlId
    rw [List.getD_append _ _ _ _ (by simp)]
    exact getD_concat_self _ [] σ.arrs
  have hB4 : (⟨(σ.arrs ++ [σ.getArr s.wlId]) ++ [σ.getArr s.flId],
      σ.mds ++ [σ.getMd s.mdId], σ.provs ++ [σ.getProv s.provId]⟩ : Heap).getArr
        (σ.arrs ++ [σ.getArr s.wlId]).length = σ.getArr s.flId :=
    getD_concat_self _ [] (σ.arrs ++ [σ.getArr s.wlId])
  have hM4 : (⟨(σ.arrs ++ [σ.getArr s.wlId]) ++ [σ.getArr s.flId],
      σ.mds ++ [σ.getMd s.mdId], σ.provs ++ [σ.getProv s.provId]⟩ : Heap).getMd
        σ.mds.length = σ.getMd s.mdId :=
    getD_concat_self _ [] σ.mds
  have hP4 : (⟨(σ.arrs ++ [σ.getArr s.wlId]) ++ [σ.getArr s.flId],
      σ.mds ++ [σ.getMd s.mdId], σ.provs ++ [σ.getProv s.provId]⟩ : Heap).getProv
        σ.provs.length = σ.getProv s.provId :=
    getD_concat_self _ [] σ.provs
  have hlen4 : ((⟨(σ.arrs ++ [σ.getArr s.wlId]) ++ [σ.getArr s.flId],
      σ.mds ++ [σ.getMd s.mdId], σ.provs ++ [σ.getProv s.provId]⟩ : Heap).getArr
        σ.arrs.length).length =
      ((⟨(σ.arrs ++ [σ.getArr s.wlId]) ++ [σ.getArr s.flId],
      σ.mds ++ [σ.getMd s.mdId], σ.provs ++ [σ.getProv s.provId]⟩ : Heap).getArr
        (σ.arrs ++ [σ.getArr s.wlId]).length).length := by
    rw [hA4, hB4]
    exact hlen
  have hRun := mkSpectrumH_run
    (⟨(σ.arrs ++ [σ.getArr s.wlId]) ++ [σ.getArr s.flId],
      σ.mds ++ [σ.getMd s.mdId], σ.provs ++ [σ.getProv s.provId]⟩ : Heap)
    σ.arrs.length (σ.arrs ++ [σ.getArr s.wlId]).length
    s.wavelength_unit s.flux_unit
    (some σ.mds.length) (some σ.provs.length) s.name hlen4
  constructor
  · intro e he
    exact hRun.1 e he
  · intro out h
    obtain ⟨hwl, hfl, hwuE, hfuE, hnmE, harrs, hmdpres, hmdval, hmdne, hmdemp,
      -, hprovsome, hprovempty, -⟩ := hRun.2 out h
    have hout_arr : ∀ j, out.2.getArr j =
        (⟨(σ.arrs ++ [σ.getArr s.wlId]) ++ [σ.getArr s.flId],
          σ.mds ++ [σ.getMd s.mdId], σ.provs ++ [σ.getProv s.provId]⟩ : Heap).getArr j := by
      intro j
      exact congrArg (fun l => List.getD l j []) harrs
    have g1 : out.2.getArr out.1.wlId = σ.getArr s.wlId := by
      rw [hwl, hout_arr, hA4]
    have g2 : out.2.getArr out.1.flId = σ.getArr s.flId := by
      rw [hfl, hout_arr, hB4]
    have g3 : out.2.getMd out.1.mdId = σ.getMd s.mdId :=
      (hmdval σ.mds.length rfl).trans hM4
    have g7 : out.2.getProv out.1.provId = σ.getProv s.provId ++ [⟨"created"⟩] := by
      by_cases hPe : σ.getProv s.provId = []
      · obtain ⟨-, hv, -⟩ := hprovempty σ.provs.length rfl (by rw [hP4]; exact hPe)
        rw [hv, hPe]
        rfl
      · obtain ⟨hid, hv, -⟩ := hprovsome σ.provs.length rfl (by rw [hP4]; exact hPe)
        rw [hid, hv, hP4]
    have g8 : out.1.wlId ≠ s.wlId := by
      rw [hwl]
      exact Nat.ne_of_gt hw
    have g9 : out.1.flId ≠ s.flId := by
      rw [hfl]
      exact Nat.ne_of_gt (lt_of_lt_of_le hf (by simp))
    have g10 : out.1.mdId ≠ s.mdId := by
      by_cases hMe : σ.getMd s.mdId = []
      · have h1 := hmdemp σ.mds.length rfl (by rw [hM4]; exact hMe)
        have h2 : s.mdId < (σ.mds ++ [σ.getMd s.mdId]).length := by
          simp only [List.length_append, List.length_singleton]
          omega
        exact Nat.ne_of_gt (lt_of_lt_of_le h2 h1)
      · rw [hmdne σ.mds.length rfl (by rw [hM4]; exact hMe)]
        exact Nat.ne_of_gt hm
    have g11 : out.1.provId ≠ s.provId := by
      by_cases hPe : σ.getProv s.provId = []
      · obtain ⟨h1, -, -⟩ := hprovempty σ.provs.length rfl (by rw [hP4]; exact hPe)
        have h2 : s.provId < (σ.provs ++ [σ.getProv s.provId]).length := by
          simp only [List.length_append, List.length_singleton]
          omega
        exact Nat.ne_of_gt (lt_of_lt_of_le h2 h1)
      · obtain ⟨hid, -, -⟩ := hprovsome σ.provs.length rfl (by rw [hP4]; exact hPe)
        rw [hid]
        exact Nat.ne_of_gt hp
    have g12 : out.2.getArr s.wlId = σ.getArr s.wlId := by
      rw [hout_arr]
      show ((σ.arrs ++ [σ.getArr s.wlId]) ++ [σ.getArr s.flId]).getD s.wlId [] = _
      rw [List.getD_append _ _ _ _ (by simp; omega),
        List.getD_append _ _ _ _ hw]
      rfl
    have g13 : out.2.getArr s.flId = σ.getArr s.flId := by
      rw [hout_arr]
      show ((σ.arrs ++ [σ.getArr s.wlId]) ++ [σ.getArr s.flId]).getD s.flId [] = _
      rw [List.getD_append _ _ _ _ (by simp; omega),
        List.getD_append _ _ _ _ hf]
      rfl
    have g14 : out.2.getMd s.mdId = σ.getMd s.mdId := by
      have h1 := hmdpres s.mdId (by simp only [List.length_append]; omega)
      rw [h1]
      show (σ.mds ++ [σ.getMd s.mdId]).getD s.mdId [] = _
      rw [List.getD_append _ _ _ _ hm]
      rfl
    have g15 : out.2.getProv s.provId = σ.getProv s.provId := by
      have hstep : (⟨(σ.arrs ++ [σ.getArr s.wlId]) ++ [σ.getArr s.flId],
          σ.mds ++ [σ.getMd s.mdId], σ.provs ++ [σ.getProv s.provId]⟩ : Heap).getProv
            s.provId = σ.getProv s.provId := by
        show (σ.provs ++ [σ.getProv s.provId]).getD s.provId [] = _
        rw [List.getD_append _ _ _ _ hp]
        rfl
      by_cases hPe : σ.getProv s.provId = []
      · obtain ⟨-, -, hpres⟩ := hprovempty σ.provs.length rfl (by rw [hP4]; exact hPe)
        rw [hpres s.provId (by simp only [List.length_append]; omega)]
        exact hstep
      · obtain ⟨-, -, hpres⟩ := hprovsome σ.provs.length rfl (by rw [hP4]; exact hPe)
        rw [hpres s.provId (by simp only [List.length_append]; omega)
          (Nat.ne_of_lt hp)]
        exact hstep
    exact ⟨g1, g2, g3, hwuE, hfuE, hnmE, g7, g8, g9, g10, g11, g12, g13, g14, g15,
      fun v => setArr_getArr_ne _ _ g8,
      fun v => setArr_getArr_ne _ _ g9,
      fun m2 => setMd_getMd_ne _ _ g10⟩

/-- C2 witness: the amended theorem on the concrete heap `σ0`. -/
theorem copy_deep_fresh_appends_created_witness :
    SpectrumH.copy s0 σ0 = .ok outCopy0 ∧
    outCopy0.2.getArr outCopy0.1.wlId = σ0.getArr s0.wlId ∧
    outCopy0.2.getProv outCopy0.1.provId =
      σ0.getProv s0.provId ++ [⟨"created"⟩] ∧
    outCopy0.1.wlId ≠ s0.wlId ∧ outCopy0.1.provId ≠ s0.provId ∧
    outCopy0.2.getProv s0.provId = σ0.getProv s0.provId ∧
    (∀ v, (outCopy0.2.setArr outCopy0.1.wlId v).getArr s0.wlId =
      outCopy0.2.getArr s0.wlId) := by
  have h := (copy_deep_fresh_appends_created s0 σ0
    ⟨by decide, by decide, by decide, by decide⟩ (by decide)).2
    outCopy0 copy_s0_eq
  exact ⟨copy_s0_eq, h.1, h.2.2.2.2.2.2.1, h.2.2.2.2.2.2.2.1,
    h.2.2.2.2.2.2.2.2.2.2.1, h.2.2.2.2.2.2.2.2.2.2.2.2.2.2.1,
    h.2.2.2.2.2.2.2.2.2.2.2.2.2.2.2.1⟩

end SpecZ

